import Mathlib

/-! # Rubinius VM primitives: object model, process control, native contexts

A shallow embedding of the primitives of `vm/builtin/system.cpp` (class
opening, method attachment, callability checks, class swapping, throw and
catch, waiting for and forking processes) and of the context constructor of
`vm/builtin/nativemethodcontext.cpp`, over explicit states, followed by
theorems about them.

Conventions of the embedding:

* the managed heap is a list of cells; an object reference is the index of its
  cell, allocation appends a cell, and reading an address that was never
  allocated yields the default (plain object) cell;
* a typed, nullable C++ pointer such as `Module*` is an `Option Nat`;
  an untyped `Object*` is an `Object`;
* a C++ function that can leave through `return NULL` with a pending
  exception, or through a thrown C++ `TypeError` (a failed `as<T>` cast),
  returns a `Ret` together with the state it leaves behind;
* what the operating system or the lock answers during a call (the outcomes of
  `waitpid`, the results of `fork`, `unlock` and `try_lock`) is an argument of
  the embedded function, and a read through a pointer that denotes no object is
  a fault;
* collaborators whose code is outside these two files are either modelled from
  the specification (their doc comment says so) or passed in as parameters.
-/

namespace Rubinius

/-! ## Data model -/

/-- Symbols are interned names; only their identity matters. -/
abbrev Symbol := Nat

/-- Values an `Object*` can denote: immediates or a heap reference. -/
inductive Object
  | nil
  | qtrue
  | qfalse
  | fixnum (n : Int)
  | symbol (s : Symbol)
  | ref (addr : Nat)
  deriving DecidableEq, Repr, Inhabited

/-- The test `obj->nil_p()`. -/
def Object.nil_p : Object → Bool
  | .nil => true
  | _ => false

/-- The test `obj->reference_p()`: the value is a pointer into the heap. -/
def Object.reference_p : Object → Bool
  | .ref _ => true
  | _ => false

/-- The representation kinds (`object_type`) the primitives distinguish. -/
inductive object_type
  | ObjectType
  | ClassType
  | MetaClassType
  | ModuleType
  | IncludedModuleType
  | ArrayType
  | PackedObjectType
  | CompiledMethodType
  | ExecutableType
  deriving DecidableEq, Repr, Inhabited

/-- Modelled from the spec: the visibility tag of a method table entry
(`MethodTableBucket::visibility`, declared outside `system.cpp`): public,
private, protected, or the "undefined" tombstone marker. -/
inductive Visibility
  | pub
  | priv
  | prot
  | undefined
  deriving DecidableEq, Repr, Inhabited

/-- Modelled from the spec: a method table entry (`MethodTableBucket`, declared
outside `system.cpp`): selector, visibility tag and executable; a nil
executable means the entry carries no implementation. -/
structure MethodTableBucket where
  name : Symbol
  visibility : Visibility
  method : Object
  deriving DecidableEq, Repr, Inhabited

/-- The accessor `entry->undef_p(state)`. -/
def MethodTableBucket.undef_p (e : MethodTableBucket) : Bool :=
  e.visibility == .undefined

/-- The accessor `entry->private_p(state)`. -/
def MethodTableBucket.private_p (e : MethodTableBucket) : Bool :=
  e.visibility == .priv

/-- The accessor `entry->protected_p(state)`. -/
def MethodTableBucket.protected_p (e : MethodTableBucket) : Bool :=
  e.visibility == .prot

/-- Modelled from the spec: a lexical scope (`StaticScope`, declared outside
`system.cpp`) as the primitives see it: the module it encloses (`module()`)
and the module that method definitions in it target
(`for_method_definition()`). -/
structure StaticScope where
  module : Nat
  for_method_definition : Nat
  deriving DecidableEq, Repr

/-- One heap cell. Every cell carries the header fields (`obj_type`, `klass`,
`ivars`); the remaining fields are those of the C++ classes the primitives
touch (Module, Class, Array, Executable/CompiledMethod) and keep their default
on cells of another kind. -/
structure Cell where
  obj_type : object_type := .ObjectType
  klass : Option Nat := none
  ivars : List (Symbol × Object) := []
  name : Object := .nil
  superclass : Option Nat := none
  constants : List (Symbol × Object) := []
  method_table : List MethodTableBucket := []
  instance_type : object_type := .ObjectType
  type_info_type : object_type := .ObjectType
  packed_size : Nat := 0
  elements : List Object := []
  scope : Option StaticScope := none
  serial : Object := .nil
  primitive : Object := .nil
  formalized : Bool := false
  specialized : Option object_type := none
  resolved : Bool := false
  deriving DecidableEq, Repr

instance : Inhabited Cell := ⟨{}⟩

/-- Reasons recorded by the thread state when a primitive returns `NULL`. -/
inductive RaiseReason
  | cNone
  | cException
  | cReturn
  | cBreak
  | cExit
  | cCatchThrow
  deriving DecidableEq, Repr, Inhabited

/-- Modelled from the spec: the exception built by `Exception::make_type_error`
for a superclass mismatch; it records the expected type, the offending object
and, for diagnostics, the two class names the message is built from. -/
structure TypeErrorInfo where
  expected : object_type
  object : Object
  given_name : Object
  previous_name : Object
  deriving DecidableEq, Repr

/-- The per-thread unwinding state (`state->thread_state()`). -/
structure ThreadState where
  raise_reason : RaiseReason := .cNone
  raise_value : Object := .nil
  throw_dest : Object := .nil
  current_exception : Option TypeErrorInfo := none
  deriving DecidableEq, Repr

/-- Modelled from the spec: an entry of the selector-keyed global resolution
cache. -/
structure CacheEntry where
  klass : Nat
  name : Symbol
  module : Nat
  method : Object
  deriving DecidableEq, Repr

/-- Modelled from the spec: a call-site inline cache registered under its
selector; `cached` is the resolution it currently holds, if any. -/
structure InlineCache where
  name : Symbol
  cached : Option (Nat × Object)
  deriving DecidableEq, Repr

/-- The well-known objects and symbols reached through `G(...)` and
`state->symbol(...)`. -/
structure Globals where
  object : Nat := 0
  sym_subclasses : Symbol := 0
  nil_class : Nat := 0
  true_class : Nat := 0
  false_class : Nat := 0
  fixnum_class : Nat := 0
  symbol_class : Nat := 0
  deriving DecidableEq, Repr

/-- Effects on the shared dispatch structures, in the order they happen. -/
inductive Event
  | table_store (mod : Nat) (name : Symbol)
  | global_cache_clear (name : Symbol)
  | ic_registry_clear (name : Symbol)
  deriving DecidableEq, Repr

/-- The VM state the primitives read and write. -/
structure VM where
  heap : List Cell := []
  globals : Globals := {}
  thread_state : ThreadState := {}
  global_cache : List CacheEntry := []
  ic_registry : List InlineCache := []
  global_serial : Nat := 0
  om_type_info : List object_type := []
  trace : List Event := []
  deriving DecidableEq, Repr

/-- How a primitive leaves: with an object, with `NULL` (an exception is
pending in the thread state), with the primitive-failure sentinel, or by a
C++ `TypeError` thrown from a failed `as<T>` cast. -/
inductive Ret
  | value (o : Object)
  | null
  | failure
  | type_error
  deriving DecidableEq, Repr

/-! ## Heap access -/

/-- The cell at an address; the default cell when nothing was allocated there. -/
def VM.cell (st : VM) (a : Nat) : Cell :=
  st.heap.getD a default

/-- Overwrite the fields of an allocated cell; no effect outside the heap. -/
def VM.update (st : VM) (a : Nat) (f : Cell → Cell) : VM :=
  { st with heap := st.heap.set a (f (st.cell a)) }

/-- Allocate a fresh cell at the end of the heap and return its address. -/
def VM.alloc (st : VM) (c : Cell) : Nat × VM :=
  (st.heap.length, { st with heap := st.heap ++ [c] })

/-- The test `kind_of<Class>`: classes and metaclasses. -/
def Cell.is_class (c : Cell) : Bool :=
  c.obj_type == .ClassType || c.obj_type == .MetaClassType

/-- The test `kind_of<Module>`: modules, included modules, classes, metaclasses. -/
def Cell.is_module (c : Cell) : Bool :=
  c.obj_type == .ModuleType || c.obj_type == .IncludedModuleType || c.is_class

/-- The checked cast `as<Class>(obj)`; `none` stands for the thrown `TypeError`. -/
def as_Class (st : VM) : Object → Option Nat
  | .ref a => if (st.cell a).is_class then some a else none
  | _ => none

/-- The checked cast `as<Module>(obj)`; `none` stands for the thrown `TypeError`. -/
def as_Module (st : VM) : Object → Option Nat
  | .ref a => if (st.cell a).is_module then some a else none
  | _ => none

/-- The unchecked cast `try_as<Array>(obj)`; `none` is the null result. -/
def try_as_Array (st : VM) : Object → Option Nat
  | .ref a => if (st.cell a).obj_type == .ArrayType then some a else none
  | _ => none

/-! ## Lookup tables (constants, instance variables) -/

/-- Modelled from the spec: `LookupTable::fetch`, the value bound to a key. -/
def tbl_fetch : List (Symbol × Object) → Symbol → Option Object
  | [], _ => none
  | (k, v) :: rest, key => if k = key then some v else tbl_fetch rest key

/-- Modelled from the spec: `LookupTable::store`, rebinding the key in place
when present and adding a binding otherwise. -/
def tbl_store : List (Symbol × Object) → Symbol → Object → List (Symbol × Object)
  | [], key, val => [(key, val)]
  | (k, v) :: rest, key, val =>
    if k = key then (k, val) :: rest else (k, v) :: tbl_store rest key val

/-- Modelled from the spec: `Module::get_const(state, name, &found)`, resolving
the name in the module's own constant table; `none` is `found == false`. -/
def get_const (st : VM) (under : Nat) (name : Symbol) : Option Object :=
  tbl_fetch (st.cell under).constants name

/-- Modelled from the spec: `Module::set_const`, binding the constant. -/
def set_const (st : VM) (under : Nat) (name : Symbol) (val : Object) : VM :=
  st.update under fun c => { c with constants := tbl_store c.constants name val }

/-- Modelled from the spec: `Object::get_ivar` on a heap object; a missing
variable, or a receiver that is not a reference, reads as nil. -/
def get_ivar (st : VM) (obj : Object) (sym : Symbol) : Object :=
  match obj with
  | .ref a => (tbl_fetch (st.cell a).ivars sym).getD .nil
  | _ => .nil

/-- Modelled from the spec: `Object::set_ivar` on a heap object. -/
def set_ivar (st : VM) (obj : Object) (sym : Symbol) (val : Object) : VM :=
  match obj with
  | .ref a => st.update a fun c => { c with ivars := tbl_store c.ivars sym val }
  | _ => st

/-! ## Arrays -/

/-- Modelled from the spec: `Array::create(state, capacity)`, a fresh array
with no elements yet. -/
def Array_create (st : VM) (_capacity : Nat) : Nat × VM :=
  st.alloc { obj_type := .ArrayType }

/-- Modelled from the spec: storing into a list of elements at an index,
growing it with nil when the index lies past the end. -/
def elements_set (xs : List Object) (idx : Nat) (val : Object) : List Object :=
  if idx < xs.length then xs.set idx val
  else xs ++ List.replicate (idx - xs.length) Object.nil ++ [val]

/-- Modelled from the spec: `Array::set(state, idx, val)`. -/
def Array_set (st : VM) (ary : Nat) (idx : Nat) (val : Object) : VM :=
  st.update ary fun c => { c with elements := elements_set c.elements idx val }

/-- Modelled from the spec: `Array::append(state, val)`. -/
def Array_append (st : VM) (ary : Nat) (val : Object) : VM :=
  st.update ary fun c => { c with elements := c.elements ++ [val] }

/-! ## Collaborators outside `system.cpp` -/

/-- Pure lookups implemented outside `system.cpp`, taken as parameters:
`Class::true_superclass` (`none` when its final `as<Class>` throws),
`Object::kind_of_p`, the qualified name `Module::set_name` builds from the
enclosing module's name and the constant name, and the visibility
`Module::add_method` records when its caller passes none. -/
structure Externals where
  true_superclass : VM → Nat → Option Nat
  kind_of_p : VM → Object → Nat → Bool
  scoped_name : Object → Symbol → Object
  add_method_visibility : Visibility

/-- Modelled from the spec: `Class::create(state, super)`, a new class cell
under the given superclass, inheriting its instance layout descriptor, with no
name, no constants and an empty method table. -/
def Class_create (st : VM) (super : Nat) : Nat × VM :=
  st.alloc
    { obj_type := .ClassType
      superclass := some super
      instance_type := (st.cell super).instance_type
      type_info_type := (st.cell super).type_info_type
      packed_size := (st.cell super).packed_size }

/-- The setter `mod->name(state, sym)`. -/
def Module_name_set (st : VM) (mod : Nat) (n : Object) : VM :=
  st.update mod fun c => { c with name := n }

/-- Modelled from the spec: `Module::set_name(state, under, name)`, naming a
module by its path below `under`. -/
def Module_set_name (ext : Externals) (st : VM) (mod under : Nat) (name : Symbol) : VM :=
  Module_name_set st mod (ext.scoped_name (st.cell under).name name)

/-- Modelled from the spec: `ThreadState::raise_exception`, making the
exception pending. -/
def raise_exception (st : VM) (exc : TypeErrorInfo) : VM :=
  { st with thread_state :=
      { st.thread_state with raise_reason := .cException, current_exception := some exc } }

/-! ## Opening classes (`system.cpp`, lines 414-483) -/

/-- The helper `add_subclass(state, super, sub)`: append `sub` to the array
held in the `@subclasses` instance variable of `super`, creating the array
when the variable does not hold one. -/
def add_subclass (st : VM) (super : Object) (sub : Nat) : VM :=
  let subclasses := st.globals.sym_subclasses
  let ivar := get_ivar st super subclasses
  match try_as_Array st ivar with
  | none =>
    let (ary, st1) := Array_create st 1
    let st2 := Array_set st1 ary 0 (.ref sub)
    set_ivar st2 super subclasses (.ref ary)
  | some ary => Array_append st ary (.ref sub)

/-- The defaulting step `if(super->nil_p()) super = G(object);`. -/
def resolve_super (st : VM) (super : Object) : Object :=
  if super.nil_p then Object.ref st.globals.object else super

/-- The primitive `System::vm_open_class_under(state, name, super, under)`. -/
def vm_open_class_under (ext : Externals) (st : VM) (name : Symbol) (super : Object)
    (under : Nat) : Ret × VM :=
  match get_const st under name with
  | some obj =>
    match as_Class st obj with
    | none => (.type_error, st)
    | some cls =>
      if super.nil_p then (.value (.ref cls), st)
      else
        match ext.true_superclass st cls with
        | none => (.type_error, st)
        | some ts =>
          if Object.ref ts ≠ super then
            match as_Module st super with
            | none => (.type_error, st)
            | some given =>
              let exc : TypeErrorInfo :=
                { expected := .ClassType
                  object := super
                  given_name := (st.cell given).name
                  previous_name := (st.cell ts).name }
              (.null, raise_exception st exc)
          else (.value (.ref cls), st)
  | none =>
    let super := resolve_super st super
    match as_Class st super with
    | none => (.type_error, st)
    | some sup =>
      let (cls, st1) := Class_create st sup
      let st2 :=
        if under = st.globals.object then Module_name_set st1 cls (.symbol name)
        else Module_set_name ext st1 cls under name
      let st3 := set_const st2 under name (.ref cls)
      let st4 := add_subclass st3 super cls
      (.value (.ref cls), st4)

/-- The primitive `System::vm_open_class(state, name, sup, scope)`; a nil scope
is `none`. -/
def vm_open_class (ext : Externals) (st : VM) (name : Symbol) (sup : Object)
    (scope : Option StaticScope) : Ret × VM :=
  let under :=
    match scope with
    | none => st.globals.object
    | some sc => sc.module
  vm_open_class_under ext st name sup under

/-- The subclass index of a class: the elements of the array held in its
`@subclasses` instance variable, empty when the variable holds no array. -/
def subclass_index (st : VM) (c : Nat) : List Object :=
  match try_as_Array st (get_ivar st (.ref c) st.globals.sym_subclasses) with
  | some ary => (st.cell ary).elements
  | none => []

/-- A run of `n` successive calls `vm_open_class_under(name, nil, under)`: the
values returned, in call order, and the state after the last call. -/
def open_class_calls (ext : Externals) (name : Symbol) (under : Nat) :
    Nat → VM → List Ret × VM
  | 0, st => ([], st)
  | n + 1, st =>
    let r := vm_open_class_under ext st name .nil under
    let rest := open_class_calls ext name under n r.2
    (r.1 :: rest.1, rest.2)

/-- The state built by the creating path of `vm_open_class_under`, before the
subclass index is touched. -/
def created_state (st : VM) (sup under : Nat) (name : Symbol) (n : Object) : VM :=
  set_const (Module_name_set (Class_create st sup).2 st.heap.length n) under name
    (.ref st.heap.length)

/-! ## Callability checks (`system.cpp`, lines 765-821) -/

/-- Modelled from the spec: `MethodTable::find_entry`, the entry of the table
for a selector, if any. -/
def find_entry : List MethodTableBucket → Symbol → Option MethodTableBucket
  | [], _ => none
  | e :: rest, sym => if e.name = sym then some e else find_entry rest sym

/-- Modelled from the spec: `Object::lookup_begin`, the module where method
lookup for a receiver starts: the class pointer of a heap object (its metaclass
when it has one), the special class of an immediate. -/
def lookup_begin (st : VM) : Object → Option Nat
  | .ref a => (st.cell a).klass
  | .nil => some st.globals.nil_class
  | .qtrue => some st.globals.true_class
  | .qfalse => some st.globals.false_class
  | .fixnum _ => some st.globals.fixnum_class
  | .symbol _ => some st.globals.symbol_class

/-- The loop of `System::vm_check_callable`, started at module `mod` with the
given `skip_vis_check` flag. Each iteration consumes one unit of fuel; `none`
means the fuel ran out before the loop returned. -/
def check_callable_walk (ext : Externals) (st : VM) (sym : Symbol) (self : Object) :
    Nat → Option Nat → Bool → Option Bool
  | _, none, _ => some false
  | 0, some _, _ => none
  | fuel + 1, some mod, skip_vis_check =>
    match find_entry (st.cell mod).method_table sym with
    | some entry =>
      if entry.undef_p then some false
      else if !skip_vis_check && entry.private_p then some false
      else if !skip_vis_check && entry.protected_p && !ext.kind_of_p st self mod then
        some false
      else if entry.method.nil_p then
        check_callable_walk ext st sym self fuel (st.cell mod).superclass true
      else some true
    | none => check_callable_walk ext st sym self fuel (st.cell mod).superclass skip_vis_check

/-- The primitive `System::vm_check_callable(state, obj, sym, self)`; `some true`
is `Qtrue`, `some false` is `Qfalse`. -/
def vm_check_callable (ext : Externals) (st : VM) (fuel : Nat) (obj : Object) (sym : Symbol)
    (self : Object) : Option Bool :=
  check_callable_walk ext st sym self fuel (lookup_begin st obj) false

/-- The fields of a `CallFrame` read by `vm_check_super_callable`. -/
structure CallFrame where
  module : Nat
  original_name : Symbol
  deriving DecidableEq, Repr

/-- The loop of `System::vm_check_super_callable`, started at module `mod`. -/
def check_super_callable_walk (st : VM) (sym : Symbol) : Nat → Option Nat → Option Bool
  | _, none => some false
  | 0, some _ => none
  | fuel + 1, some mod =>
    match find_entry (st.cell mod).method_table sym with
    | some entry =>
      if entry.undef_p then some false
      else if !entry.method.nil_p then some true
      else check_super_callable_walk st sym fuel (st.cell mod).superclass
    | none => check_super_callable_walk st sym fuel (st.cell mod).superclass

/-- The primitive `System::vm_check_super_callable(state, call_frame)`. -/
def vm_check_super_callable (st : VM) (fuel : Nat) (call_frame : CallFrame) : Option Bool :=
  check_super_callable_walk st call_frame.original_name fuel
    (st.cell call_frame.module).superclass

/-- The lookup chain from a module: the modules reached by following superclass
links until nil, in order; `none` when nil is not reached within `fuel` links. -/
def lookup_chain (st : VM) : Nat → Option Nat → Option (List Nat)
  | _, none => some []
  | 0, some _ => none
  | fuel + 1, some mod => (lookup_chain st fuel (st.cell mod).superclass).map (mod :: ·)

/-- A stub entry: not a tombstone, and no implementation. -/
def MethodTableBucket.stub_p (e : MethodTableBucket) : Bool :=
  !e.undef_p && e.method.nil_p

/-- A concrete entry: not a tombstone, and an implementation. -/
def MethodTableBucket.concrete_p (e : MethodTableBucket) : Bool :=
  !e.undef_p && !e.method.nil_p

/-! ## Dispatch caches and the global serial (`system.cpp`, lines 303-309, 575-577) -/

/-- Modelled from the spec: `GlobalCache::clear(name)`, dropping every cached
resolution for the selector. -/
def GlobalCache_clear (st : VM) (name : Symbol) : VM :=
  { st with
    global_cache := st.global_cache.filter fun ce => ce.name != name
    trace := st.trace ++ [.global_cache_clear name] }

/-- Modelled from the spec: `InlineCacheRegistry::clear(name)`, resetting every
call-site cache registered under the selector. -/
def InlineCacheRegistry_clear (st : VM) (name : Symbol) : VM :=
  { st with
    ic_registry := st.ic_registry.map fun ic =>
      if ic.name = name then { ic with cached := none } else ic
    trace := st.trace ++ [.ic_registry_clear name] }

/-- The primitive `System::vm_reset_method_cache(state, name)`. -/
def vm_reset_method_cache (st : VM) (name : Symbol) : Ret × VM :=
  let st1 := GlobalCache_clear st name
  let st2 := InlineCacheRegistry_clear st1 name
  (.value (.symbol name), st2)

/-- Modelled from the spec: `SharedState::inc_global_serial`, advancing the
global serial counter by one and yielding the new value. The counter is
modelled as an unbounded natural number. -/
def inc_global_serial (st : VM) : Nat × VM :=
  (st.global_serial + 1, { st with global_serial := st.global_serial + 1 })

/-- The primitive `System::vm_inc_global_serial(state)`. -/
def vm_inc_global_serial (st : VM) : Ret × VM :=
  let r := inc_global_serial st
  (.value (.fixnum r.1), r.2)

/-! ## Attaching methods (`system.cpp`, lines 61-75 and 523-557) -/

/-- Modelled from the spec: `MethodTable::store`, binding the selector to the
executable with the visibility, replacing an entry already there. -/
def MethodTable_store :
    List MethodTableBucket → Symbol → Object → Visibility → List MethodTableBucket
  | [], name, exec, vis => [{ name := name, visibility := vis, method := exec }]
  | e :: rest, name, exec, vis =>
    if e.name = name then { name := name, visibility := vis, method := exec } :: rest
    else e :: MethodTable_store rest name exec vis

/-- Modelled from the spec: the call `mod->method_table()->store(state, name,
exec, vis)`, whose body (`MethodTable::store`) is outside `system.cpp`: the
entry is stored in the table of `mod` and, a method table having changed, the
global serial counter is advanced through `inc_global_serial`, as the
specification requires of every method table change. -/
def method_table_store (st : VM) (mod : Nat) (name : Symbol) (exec : Object)
    (vis : Visibility) : VM :=
  let st1 := st.update mod fun c =>
    { c with method_table := MethodTable_store c.method_table name exec vis }
  let st2 := (inc_global_serial st1).2
  { st2 with trace := st2.trace ++ [.table_store mod name] }

/-- Modelled from the spec: `Module::add_method(state, name, exec)` called
without a visibility: the method is stored in the module's method table under
the visibility the collaborator records in that case. -/
def Module_add_method (ext : Externals) (st : VM) (mod : Nat) (name : Symbol)
    (exec : Object) : VM :=
  method_table_store st mod name exec ext.add_method_visibility

/-- Modelled from the spec: `Object::metaclass(state)`, the singleton class of
the receiver: the class pointer of a heap object when it already is a
metaclass, otherwise a metaclass created now, placed in front of the former
class pointer; for an immediate, its special class. -/
def Object_metaclass (st : VM) : Object → Nat × VM
  | .ref a =>
    let attach : Nat × VM :=
      let r := st.alloc { obj_type := .MetaClassType, superclass := (st.cell a).klass }
      (r.1, r.2.update a fun c => { c with klass := some r.1 })
    match (st.cell a).klass with
    | some k => if (st.cell k).obj_type = .MetaClassType then (k, st) else attach
    | none => attach
  | .nil => (st.globals.nil_class, st)
  | .qtrue => (st.globals.true_class, st)
  | .qfalse => (st.globals.false_class, st)
  | .fixnum _ => (st.globals.fixnum_class, st)
  | .symbol _ => (st.globals.symbol_class, st)

/-- The setters `method->scope(state, scope)` and `method->serial(state, n)`. -/
def method_scope_serial (st : VM) (method : Nat) (scope : StaticScope) (n : Int) : VM :=
  st.update method fun c => { c with scope := some scope, serial := .fixnum n }

/-- Modelled from the spec: `CompiledMethod::formalize`, recorded on the method. -/
def CompiledMethod_formalize (st : VM) (method : Nat) : VM :=
  st.update method fun c => { c with formalized := true }

/-- Modelled from the spec: `CompiledMethod::specialize`, recording the
instance layout the method is specialised against. -/
def CompiledMethod_specialize (st : VM) (method : Nat) (ti : object_type) : VM :=
  st.update method fun c => { c with specialized := some ti }

/-- The primitive `System::vm_add_method(state, name, method, scope, vis)`. -/
def vm_add_method (ext : Externals) (st : VM) (name : Symbol) (method : Nat)
    (scope : StaticScope) (_vis : Object) : Ret × VM :=
  let mod := scope.for_method_definition
  let st1 := method_scope_serial st method scope 0
  let st2 := Module_add_method ext st1 mod name (.ref method)
  let st3 :=
    if (st2.cell mod).is_class then
      let st2a := CompiledMethod_formalize st2 method
      let type := (st2a.cell mod).instance_type
      if type ∈ st2a.om_type_info then CompiledMethod_specialize st2a method type
      else st2a
    else st2
  let st4 := (vm_reset_method_cache st3 name).2
  (.value (.ref method), st4)

/-- The primitive `System::vm_attach_method(state, name, method, scope, recv)`. -/
def vm_attach_method (ext : Externals) (st : VM) (name : Symbol) (method : Nat)
    (scope : StaticScope) (recv : Object) : Ret × VM :=
  let m := Object_metaclass st recv
  let st1 := method_scope_serial m.2 method scope 0
  let st2 := Module_add_method ext st1 m.1 name (.ref method)
  let st3 := (vm_reset_method_cache st2 name).2
  (.value (.ref method), st3)

/-- The function `System::attach_primitive(state, mod, meta, name, prim)`. -/
def attach_primitive (st : VM) (mod : Nat) (is_meta : Bool) (name prim : Symbol) : VM :=
  let tbl : Nat × VM := if is_meta then Object_metaclass st (.ref mod) else (mod, st)
  let oc := tbl.2.alloc { obj_type := .ExecutableType }
  let st1 := oc.2.update oc.1 fun c => { c with primitive := .symbol prim }
  let st2 := st1.update oc.1 fun c => { c with resolved := true }
  method_table_store st2 tbl.1 name (.ref oc.1) .pub

/-! ## Swapping an object's class (`system.cpp`, lines 649-661) -/

/-- The test `kind_of<PackedObject>(obj)`. -/
def kind_of_PackedObject (st : VM) : Object → Bool
  | .ref a => (st.cell a).obj_type == .PackedObjectType
  | _ => false

/-- The read `obj->klass()->packed_size()` on a heap object. -/
def klass_packed_size (st : VM) (a : Nat) : Nat :=
  match (st.cell a).klass with
  | some k => (st.cell k).packed_size
  | none => (default : Cell).packed_size

/-- The primitive `System::vm_set_class(state, obj, cls)`. -/
def vm_set_class (st : VM) (obj : Object) (cls : Nat) : Ret × VM :=
  match obj with
  | .ref a =>
    if (st.cell a).obj_type ≠ (st.cell cls).type_info_type then (.failure, st)
    else if kind_of_PackedObject st obj && klass_packed_size st a != (st.cell cls).packed_size
    then (.failure, st)
    else (.value obj, st.update a fun c => { c with klass := some cls })
  | _ => (.failure, st)

/-- The condition under which the specification permits `set_object_class`: the
object is a heap reference, its representation type is the target class's
declared type, and a packed object keeps its packed size. -/
def set_class_permitted (st : VM) (obj : Object) (cls : Nat) : Prop :=
  ∃ a, obj = .ref a ∧ (st.cell a).obj_type = (st.cell cls).type_info_type ∧
    ((st.cell a).obj_type = .PackedObjectType →
      klass_packed_size st a = (st.cell cls).packed_size)

/-- The outcome the specification asks of attaching `method` under `name` to the
method table of `mod`, starting from state `st`: the method is returned, the
table binds the selector to it, neither cache layer holds a resolution for the
selector, and the events of the call are the table store followed by the
clearing of the global cache and of the inline-cache registry. -/
def attached_and_invalidated (st : VM) (r : Ret × VM) (mod : Nat) (name : Symbol)
    (method : Nat) : Prop :=
  r.1 = .value (.ref method) ∧
  (∃ e, find_entry (r.2.cell mod).method_table name = some e ∧ e.method = .ref method) ∧
  (∀ ce ∈ r.2.global_cache, ce.name ≠ name) ∧
  (∀ ic ∈ r.2.ic_registry, ic.name = name → ic.cached = none) ∧
  r.2.trace = st.trace ++
    [.table_store mod name, .global_cache_clear name, .ic_registry_clear name]

/-! ## Throw and catch (`system.cpp`, lines 624-647) -/

/-- Modelled from the spec: `ThreadState::raise_throw(dest, value)`, starting a
non-local unwind tagged with `dest` and carrying `value`. -/
def raise_throw (st : VM) (dest : Symbol) (value : Object) : VM :=
  { st with thread_state :=
      { st.thread_state with
        raise_reason := .cCatchThrow, raise_value := value, throw_dest := .symbol dest } }

/-- Modelled from the spec: `ThreadState::clear_return`, absorbing the pending
unwind: no raise reason and no carried value remain. -/
def clear_return (st : VM) : VM :=
  { st with thread_state :=
      { st.thread_state with raise_reason := .cNone, raise_value := .nil } }

/-- The primitive `System::vm_throw(state, dest, value)`. -/
def vm_throw (st : VM) (dest : Symbol) (value : Object) : Ret × VM :=
  (.null, raise_throw st dest value)

/-- The dispatch mechanism, implemented outside `system.cpp` and taken as a
parameter: the symbol `state->symbol("call")`, and `Dispatch::send`, which for
a selector, a receiver and the module where lookup begins runs the method and
yields what it returned (`none` for `NULL`) with the state it left behind. -/
structure Dispatcher where
  sym_call : Symbol
  send : VM → Symbol → Object → Option Nat → Option Object × VM

/-- The primitive `System::vm_catch(state, dest, obj, call_frame)`. -/
def vm_catch (d : Dispatcher) (st : VM) (dest : Symbol) (obj : Object) : Ret × VM :=
  let lookup := lookup_begin st obj
  let r := d.send st d.sym_call obj lookup
  match r.1 with
  | none =>
    if r.2.thread_state.raise_reason = .cCatchThrow then
      if r.2.thread_state.throw_dest = .symbol dest then
        let val := r.2.thread_state.raise_value
        (.value val, clear_return r.2)
      else (.null, r.2)
    else (.null, r.2)
  | some ret => (.value ret, r.2)

/-! ## Process control: the global lock (`system.cpp`, lines 151-258) -/

/-- The result codes of the lock operations (`thread::Code`). -/
inductive LockCode
  | cLocked
  | cUnlocked
  | cLockBusy
  | cNotYours
  | cReady
  | cTimedOut
  deriving DecidableEq, Repr

/-- The background compiler as process control sees it. -/
inductive CompilerStatus
  | running
  | paused
  | restartable
  deriving DecidableEq, Repr

/-- What process control does to its collaborators, in the order it happens. -/
inductive ProcessEvent
  | llvm_pause
  | lock_unlock
  | os_fork
  | lock_init
  | lock_try_lock
  | lock_error_message
  | lock_lock
  | shared_reinit
  | llvm_on_fork
  | llvm_unpause
  | os_waitpid (pid : Int) (options : Nat)
  | errno_error (call : Nat)
  deriving DecidableEq, Repr

/-- The process-level state the primitives act on: whether the calling thread
holds the global execution lock, how often the lock was re-initialised, the
background compiler, how often the shared state was re-initialised, the pending
system-call error if any, and the log of events. -/
structure ProcessState where
  lock_held : Bool := true
  lock_inits : Nat := 0
  compiler : CompilerStatus := .running
  shared_reinits : Nat := 0
  pending_errno : Option Nat := none
  events : List ProcessEvent := []
  deriving DecidableEq, Repr

/-- Modelled from the spec: `GlobalLock::unlock()`, whose result code is given;
the lock is released when the code is `cUnlocked`. -/
def lock_unlock (ps : ProcessState) (code : LockCode) : ProcessState :=
  { ps with
    lock_held := if code = .cUnlocked then false else ps.lock_held
    events := ps.events ++ [.lock_unlock] }

/-- Modelled from the spec: `GlobalLock::lock()`, which returns once the lock is
acquired. -/
def lock_lock (ps : ProcessState) : ProcessState :=
  { ps with lock_held := true, events := ps.events ++ [.lock_lock] }

/-- Modelled from the spec: `GlobalLock::init()`, a fresh lock instance, held by
nobody. -/
def lock_init (ps : ProcessState) : ProcessState :=
  { ps with
    lock_held := false
    lock_inits := ps.lock_inits + 1
    events := ps.events ++ [.lock_init] }

/-- Modelled from the spec: `GlobalLock::try_lock()`, whose result code is
given; the lock is acquired when the code is `cLocked`. -/
def lock_try_lock (ps : ProcessState) (code : LockCode) : ProcessState :=
  { ps with
    lock_held := if code = .cLocked then true else ps.lock_held
    events := ps.events ++ [.lock_try_lock] }

/-- Append one event to the log. -/
def ProcessState.log (ps : ProcessState) (e : ProcessEvent) : ProcessState :=
  { ps with events := ps.events ++ [e] }

/-- Modelled from the spec: `LLVMState::pause`. -/
def LLVMState_pause (ps : ProcessState) : ProcessState :=
  { ps with compiler := .paused, events := ps.events ++ [.llvm_pause] }

/-- Modelled from the spec: `LLVMState::unpause`. -/
def LLVMState_unpause (ps : ProcessState) : ProcessState :=
  { ps with compiler := .running, events := ps.events ++ [.llvm_unpause] }

/-- Modelled from the spec: `LLVMState::on_fork`, leaving the compiler in a
fresh, restartable state. -/
def LLVMState_on_fork (ps : ProcessState) : ProcessState :=
  { ps with compiler := .restartable, events := ps.events ++ [.llvm_on_fork] }

/-- Modelled from the spec: `SharedState::reinit`. -/
def shared_reinit (ps : ProcessState) : ProcessState :=
  { ps with shared_reinits := ps.shared_reinits + 1, events := ps.events ++ [.shared_reinit] }

/-- Modelled from the spec: `Exception::errno_error(state, message)`, making a
system-call error pending; `call` identifies the failed call. -/
def errno_error (ps : ProcessState) (call : Nat) : ProcessState :=
  { ps with pending_errno := some call, events := ps.events ++ [.errno_error call] }

/-! ## Waiting for a child (`system.cpp`, lines 151-192) -/

/-- The values of `errno` the primitive distinguishes. -/
inductive Errno
  | ECHILD
  | EINTR
  | other (code : Nat)
  deriving DecidableEq, Repr

/-- One outcome of the system call `waitpid`: its return value, the value of
`errno` after it and the status word it stored. -/
structure WaitOutcome where
  pid : Int
  errno : Errno
  status : Nat
  deriving DecidableEq, Repr

/-- The parts of `<sys/wait.h>` the primitive uses, taken as parameters: the
option bit `WNOHANG` and the status decoders `WIFEXITED` and `WEXITSTATUS`. -/
structure WaitStatusOps where
  WNOHANG : Nat
  WIFEXITED : Nat → Bool
  WEXITSTATUS : Nat → Int

/-- What `vm_wait_pid` returns: an object, or the two-element tuple built by
`Tuple::from(state, 2, output, pid)`. -/
inductive WaitRet
  | obj (o : Object)
  | tuple (output : Object) (pid : Object)
  deriving DecidableEq, Repr

/-- The conversion in `pid_t input_pid = pid_obj->to_native()`: the native value
of the Fixnum is narrowed to `pid_t`, a signed 32-bit integer, keeping its low
32 bits. -/
def to_pid_t (n : Int) : Int :=
  (n + 2 ^ 31) % 2 ^ 32 - 2 ^ 31

/-- The body of `System::vm_wait_pid` from the label `retry:` on, for the
narrowed `input_pid` and the `options` computed before the label. The list
holds the outcomes of the successive `waitpid` calls, and `none` means the list
ran out while the primitive was still retrying. Each call is made inside an
`UnlockGuard`: the lock is released before it and taken again after it. -/
def vm_wait_pid_retry (w : WaitStatusOps) (input_pid : Int) (options : Nat)
    (no_hang : Object) : ProcessState → List WaitOutcome → Option (WaitRet × ProcessState)
  | _, [] => none
  | ps, o :: rest =>
    let ps1 := lock_unlock ps .cUnlocked
    let ps2 := ps1.log (.os_waitpid input_pid options)
    let ps3 := lock_lock ps2
    if o.pid = -1 then
      if o.errno = .ECHILD then some (.obj .qfalse, ps3)
      else if o.errno = .EINTR then vm_wait_pid_retry w input_pid options no_hang ps3 rest
      else some (.obj .qfalse, ps3)
    else if no_hang = .qtrue ∧ o.pid = 0 then some (.obj .nil, ps3)
    else
      let output : Object :=
        if w.WIFEXITED o.status then .fixnum (w.WEXITSTATUS o.status) else .nil
      if input_pid > 0 then some (.obj output, ps3)
      else some (.tuple output (.fixnum o.pid), ps3)

/-- The primitive `System::vm_wait_pid(state, pid_obj, no_hang)`; `pid_obj` is
the integer the Fixnum holds. -/
def vm_wait_pid (w : WaitStatusOps) (pid_obj : Int) (no_hang : Object) (ps : ProcessState)
    (outcomes : List WaitOutcome) : Option (WaitRet × ProcessState) :=
  let input_pid := to_pid_t pid_obj
  let options : Nat := if no_hang = .qtrue then 0 ||| w.WNOHANG else 0
  vm_wait_pid_retry w input_pid options no_hang ps outcomes

/-- An interrupted call: `waitpid` returned -1 with `errno` set to `EINTR`. -/
def WaitOutcome.interrupted (o : WaitOutcome) : Bool :=
  o.pid == -1 && o.errno == .EINTR

/-! ## Forking (`system.cpp`, lines 199-258) -/

/-- What the environment decides during one `vm_fork`: whether the build has
`ENABLE_LLVM`, the code returned by the initial `lock.unlock()`, the result of
`::fork()`, and the code returned by the child's `lock.try_lock()`. -/
structure ForkEnv where
  enable_llvm : Bool
  unlock_result : LockCode
  fork_result : Int
  try_lock_result : LockCode
  deriving DecidableEq, Repr

/-- How `vm_fork` leaves: with a Fixnum, with `NULL` (a system-call error is
pending), or by aborting the process. -/
inductive ForkRet
  | fixnum (n : Int)
  | null
  | aborted
  deriving DecidableEq, Repr

/-- The identifier under which `errno_error` records the failed `fork(2)`. -/
def fork_call : Nat := 2

/-- The tail of `vm_fork`, after the lock has been taken again: the
re-initialisation in the child or the unpausing in the parent, then the result. -/
def vm_fork_finish (env : ForkEnv) (ps : ProcessState) : ForkRet × ProcessState :=
  let result := env.fork_result
  let ps1 :=
    if result = 0 then
      let p := shared_reinit ps
      if env.enable_llvm then LLVMState_on_fork p else p
    else
      if env.enable_llvm then LLVMState_unpause ps else ps
  if result = -1 then (.null, errno_error ps1 fork_call)
  else (.fixnum result, ps1)

/-- The head of `vm_fork`, up to the call of `::fork()`: the compiler is paused
(in a build with `ENABLE_LLVM`) and the lock is unlocked. -/
def vm_fork_prologue (env : ForkEnv) (ps : ProcessState) : ProcessState :=
  let ps0 := if env.enable_llvm then LLVMState_pause ps else ps
  lock_unlock ps0 env.unlock_result

/-- The primitive `System::vm_fork(state)`. -/
def vm_fork (env : ForkEnv) (ps : ProcessState) : ForkRet × ProcessState :=
  let ps1 := vm_fork_prologue env ps
  if env.unlock_result ≠ .cUnlocked then (.aborted, ps1)
  else
    let ps2 := ps1.log .os_fork
    if env.fork_result = 0 then
      let ps3 := lock_init ps2
      let ps4 := lock_try_lock ps3 env.try_lock_result
      if env.try_lock_result = .cLockBusy then (.aborted, ps4.log .lock_error_message)
      else vm_fork_finish env ps4
    else vm_fork_finish env (lock_lock ps2)

/-! ## Native method contexts (`nativemethodcontext.cpp`, lines 40-99) -/

/-- Modelled from the spec: the call message (`Message`, declared outside
`nativemethodcontext.cpp`): receiver, defining module and selector. -/
structure Message where
  recv : Object
  module : Object
  name : Symbol
  deriving DecidableEq, Repr

/-- Modelled from the spec: the owning task (`Task`, declared outside
`nativemethodcontext.cpp`), of which `create` reads the active context. -/
structure Task where
  active : Object
  deriving DecidableEq, Repr

/-- The tag `my_action`: why control entered the runtime. -/
inductive NativeAction
  | ORIGINAL_CALL
  | CALL_FROM_C
  deriving DecidableEq, Repr

/-- The fields of a `NativeMethodContext` written by `create`. The stack buffer
is represented by its size in bytes, the handle storage by the objects it
holds, and `home` by the address of the context it points to. -/
structure NativeMethodContext where
  sender : Object
  home : Nat
  self : Object
  module : Object
  name : Object
  stack_size : Nat
  my_stack : Nat
  my_action : NativeAction
  my_message : Option Message
  my_method : Object
  my_handles : List Object
  my_return_value : Object
  my_task : Option Task
  deriving DecidableEq, Repr

/-- The state `create` acts on: the contexts allocated so far, by address, and
the file-level pointer `hidden_current_native_context`. -/
structure NativeState where
  contexts : List NativeMethodContext := []
  hidden_current_native_context : Option Nat := none
  deriving DecidableEq, Repr

/-- How a call faults instead of completing: a failed checked cast, a read
through a `Task*` that denotes no task, a read through a null `Message*`. -/
inductive NativeFault
  | type_error
  | absent_task_read
  | null_message_read
  deriving DecidableEq, Repr

/-- The checked cast `as<Task>(obj)` applied to an object that is a task
(`some`) or nil (`none`): a task is passed on, nil is not a task and makes the
cast throw. -/
def as_Task : Option Task → Except NativeFault (Option Task)
  | some t => .ok (some t)
  | none => .error .type_error

/-- The read `task->active()` through a `Task*`. -/
def Task_active : Option Task → Except NativeFault Object
  | some t => .ok t.active
  | none => .error .absent_task_read

/-- A read of one field through a `Message*`. -/
def Message_read (msg : Option Message) (field : Message → Object) :
    Except NativeFault Object :=
  match msg with
  | some m => .ok (field m)
  | none => .error .null_message_read

/-- The function `NativeMethodContext::current_context_is(context)`. -/
def current_context_is (ns : NativeState) (context : Nat) : NativeState :=
  { ns with hidden_current_native_context := some context }

/-- The function `NativeMethodContext::current()`. -/
def NativeMethodContext_current (ns : NativeState) : Option Nat :=
  ns.hidden_current_native_context

/-- The function `NativeMethodContext::create(state, msg, task, method)`, with
the constant `DEFAULT_STACK_SIZE` as a parameter. The statements are taken in
source order: the sender is read from the task, then receiver, module and name
from the message, before the stack and the handle storage are set up; the
context is then made current and its address returned. -/
def NativeMethodContext_create (DEFAULT_STACK_SIZE : Nat) (ns : NativeState)
    (msg : Option Message) (task : Option Task) (method : Object) :
    Except NativeFault (Nat × NativeState) := do
  let nmc := ns.contexts.length
  let sender ← Task_active task
  let self ← Message_read msg (·.recv)
  let module ← Message_read msg (·.module)
  let name ← Message_read msg (fun m => .symbol m.name)
  let context : NativeMethodContext :=
    { sender := sender
      home := nmc
      self := self
      module := module
      name := name
      stack_size := DEFAULT_STACK_SIZE
      my_stack := DEFAULT_STACK_SIZE
      my_action := .ORIGINAL_CALL
      my_message := msg
      my_method := method
      my_handles := []
      my_return_value := .nil
      my_task := task }
  let ns1 : NativeState := { ns with contexts := ns.contexts ++ [context] }
  pure (nmc, current_context_is ns1 nmc)

/-- The function `NativeMethodContext::allocate(state)`: `create(state)` with
its default arguments, a null message, the task `as<Task>(Qnil)` and a nil
method. The default task is evaluated before `create` is entered. -/
def NativeMethodContext_allocate (DEFAULT_STACK_SIZE : Nat) (ns : NativeState) :
    Except NativeFault (Nat × NativeState) := do
  let task ← as_Task none
  NativeMethodContext_create DEFAULT_STACK_SIZE ns none task .nil
/-! ## Sample states for concrete evaluation -/

/-- Sample collaborators for concrete evaluations: the true superclass is the
direct superclass link, nothing is kind-of anything, a scoped name is the
plain constant name, and methods are added as public. -/
def sample_ext : Externals where
  true_superclass := fun st c => (st.cell c).superclass
  kind_of_p := fun _ _ _ => false
  scoped_name := fun _ s => .symbol s
  add_method_visibility := .pub

/-- A sample registry holding only the root object class, at address 0. -/
def root_only : VM :=
  { heap := [{ obj_type := .ClassType, name := .symbol 1 }]
    globals := { object := 0, sym_subclasses := 100 } }

/-- A sample registry: the root object class (address 0), the class `Animal`
(address 1, constant 7 of the root, superclass the root) and the class `Mammal`
(address 2, constant 8 of the root, superclass the root). -/
def animal_registry : VM :=
  { heap :=
      [ { obj_type := .ClassType, name := .symbol 1,
          constants := [(7, .ref 1), (8, .ref 2)] },
        { obj_type := .ClassType, name := .symbol 7, superclass := some 0 },
        { obj_type := .ClassType, name := .symbol 8, superclass := some 0 } ]
    globals := { object := 0, sym_subclasses := 100 } }

/-- A sample state: class `Animal` (address 0, no superclass) binds selector 9
to a private concrete method (the executable at address 2); address 1 is an
instance of `Animal`. -/
def private_speak : VM :=
  { heap :=
      [ { obj_type := .ClassType, name := .symbol 7,
          method_table := [{ name := 9, visibility := .priv, method := .ref 2 }] },
        { obj_type := .ObjectType, klass := some 0 },
        { obj_type := .CompiledMethodType } ] }

/-- A sample state: class `Cat` (address 1) has superclass `Animal` (address 0),
which binds selector 9 to a private concrete method (address 2). -/
def private_super : VM :=
  { heap :=
      [ { obj_type := .ClassType, name := .symbol 7,
          method_table := [{ name := 9, visibility := .priv, method := .ref 2 }] },
        { obj_type := .ClassType, name := .symbol 8, superclass := some 0 },
        { obj_type := .CompiledMethodType } ] }

/-- A sample state: class `Cat` (address 1) holds a public stub for selector 9;
its superclass `Animal` (address 0) binds selector 9 to a private concrete
method (address 3); address 2 is an instance of `Cat`. -/
def stub_over_private : VM :=
  { heap :=
      [ { obj_type := .ClassType, name := .symbol 7,
          method_table := [{ name := 9, visibility := .priv, method := .ref 3 }] },
        { obj_type := .ClassType, name := .symbol 8, superclass := some 0,
          method_table := [{ name := 9, visibility := .pub, method := .nil }] },
        { obj_type := .ObjectType, klass := some 1 },
        { obj_type := .CompiledMethodType } ] }

/-- A sample state: class `Animal` (address 0) with an instance (address 1) and
a compiled method (address 2); both cache layers hold a resolution for
selector 9, and the global serial stands at 41. -/
def cached_speak : VM :=
  { heap :=
      [ { obj_type := .ClassType, name := .symbol 7 },
        { obj_type := .ObjectType, klass := some 0 },
        { obj_type := .CompiledMethodType } ]
    global_cache := [{ klass := 0, name := 9, module := 0, method := .ref 5 }]
    ic_registry := [{ name := 9, cached := some (0, .ref 5) }]
    global_serial := 41 }

/-- A sample state: classes `Point` (address 0) and `Pixel` (address 1), both
declaring packed objects of packed size 2, and a packed instance of `Point`
(address 2). -/
def packed_point : VM :=
  { heap :=
      [ { obj_type := .ClassType, type_info_type := .PackedObjectType, packed_size := 2 },
        { obj_type := .ClassType, type_info_type := .PackedObjectType, packed_size := 2 },
        { obj_type := .PackedObjectType, klass := some 0 } ] }

/-- A sample dispatcher whose `call` always throws to tag 7 with value 42. -/
def throwing_dispatcher : Dispatcher where
  sym_call := 1
  send := fun st _ _ _ => (none, raise_throw st 7 (.fixnum 42))

/-- Sample status decoding, after the usual layout of the status word: exited
normally when the low seven bits are zero, exit code in the next eight bits. -/
def sample_wait_ops : WaitStatusOps where
  WNOHANG := 1
  WIFEXITED := fun s => s % 128 == 0
  WEXITSTATUS := fun s => ((s / 256) % 256 : Nat)

/-- Sample outcomes of `waitpid`: two interrupted calls, then child 1234 exited
with code 3. -/
def interrupted_then_exit : List WaitOutcome :=
  [ { pid := -1, errno := .EINTR, status := 0 },
    { pid := -1, errno := .EINTR, status := 0 },
    { pid := 1234, errno := .other 0, status := 768 } ]

/-- A sample fork in the child: the unlock succeeds, `fork` yields 0 and the
fresh lock is acquired. -/
def child_fork : ForkEnv :=
  { enable_llvm := true, unlock_result := .cUnlocked, fork_result := 0,
    try_lock_result := .cLocked }
/-! # Theorems -/

/-! ## Heap lemmas -/

theorem cell_of_length_le (st : VM) (a : Nat) (h : st.heap.length ≤ a) :
    st.cell a = default := by
  unfold VM.cell
  simp [List.getD_eq_getElem?_getD, List.getElem?_eq_none h]

theorem cell_update (st : VM) (a b : Nat) (f : Cell → Cell) :
    (st.update a f).cell b =
      if a < st.heap.length ∧ b = a then f (st.cell a) else st.cell b := by
  unfold VM.update VM.cell
  simp only [List.getD_eq_getElem?_getD, List.getElem?_set]
  by_cases hab : a = b
  · subst hab
    by_cases hlt : a < st.heap.length
    · simp [hlt]
    · simp [hlt, List.getElem?_eq_none (Nat.le_of_not_lt hlt)]
  · have hba : ¬ b = a := fun h => hab h.symm
    simp [hab, hba]

theorem cell_alloc (st : VM) (c : Cell) (b : Nat) :
    (st.alloc c).2.cell b = if b = st.heap.length then c else st.cell b := by
  unfold VM.alloc VM.cell
  simp only [List.getD_eq_getElem?_getD]
  rcases Nat.lt_trichotomy b st.heap.length with h | h | h
  · simp [List.getElem?_append_left h, Nat.ne_of_lt h]
  · subst h; simp
  · have h1 : st.heap.length ≤ b := Nat.le_of_lt h
    have h2 : (st.heap ++ [c]).length ≤ b := by simp; omega
    simp [List.getElem?_eq_none h2, List.getElem?_eq_none h1, Nat.ne_of_gt h]

@[simp] theorem update_length (st : VM) (a : Nat) (f : Cell → Cell) :
    (st.update a f).heap.length = st.heap.length := by
  simp [VM.update]

@[simp] theorem update_globals (st : VM) (a : Nat) (f : Cell → Cell) :
    (st.update a f).globals = st.globals := rfl

@[simp] theorem alloc_length (st : VM) (c : Cell) :
    (st.alloc c).2.heap.length = st.heap.length + 1 := by
  simp [VM.alloc]

@[simp] theorem alloc_fst (st : VM) (c : Cell) : (st.alloc c).1 = st.heap.length := rfl

@[simp] theorem alloc_globals (st : VM) (c : Cell) : (st.alloc c).2.globals = st.globals := rfl

theorem lt_length_of_is_module (st : VM) (a : Nat) (h : (st.cell a).is_module = true) :
    a < st.heap.length := by
  by_contra hlt
  rw [cell_of_length_le st a (Nat.le_of_not_lt hlt)] at h
  exact absurd h (by decide)

theorem lt_length_of_is_class (st : VM) (a : Nat) (h : (st.cell a).is_class = true) :
    a < st.heap.length := by
  by_contra hlt
  rw [cell_of_length_le st a (Nat.le_of_not_lt hlt)] at h
  exact absurd h (by decide)

theorem lt_length_of_array (st : VM) (a : Nat) (h : (st.cell a).obj_type = .ArrayType) :
    a < st.heap.length := by
  by_contra hlt
  rw [cell_of_length_le st a (Nat.le_of_not_lt hlt)] at h
  exact absurd h (by decide)

theorem tbl_fetch_store_same (t : List (Symbol × Object)) (k : Symbol) (v : Object) :
    tbl_fetch (tbl_store t k v) k = some v := by
  induction t with
  | nil => simp [tbl_store, tbl_fetch]
  | cons p rest ih =>
    obtain ⟨k0, v0⟩ := p
    by_cases h : k0 = k
    · simp [tbl_store, tbl_fetch, h]
    · simp [tbl_store, tbl_fetch, h, ih]

/-! ## Opening classes -/

theorem add_subclass_none (st : VM) (super : Object) (sub : Nat)
    (h : try_as_Array st (get_ivar st super st.globals.sym_subclasses) = none) :
    add_subclass st super sub =
      set_ivar (Array_set (Array_create st 1).2 (Array_create st 1).1 0 (.ref sub)) super
        st.globals.sym_subclasses (.ref (Array_create st 1).1) := by
  simp only [add_subclass, h]

theorem add_subclass_some (st : VM) (super : Object) (sub ary : Nat)
    (h : try_as_Array st (get_ivar st super st.globals.sym_subclasses) = some ary) :
    add_subclass st super sub = Array_append st ary (.ref sub) := by
  simp only [add_subclass, h]

theorem try_as_Array_some (st : VM) (o : Object) (ary : Nat) (h : try_as_Array st o = some ary) :
    o = .ref ary ∧ (st.cell ary).obj_type = .ArrayType := by
  cases o <;> simp [try_as_Array] at h
  rename_i a
  obtain ⟨h1, h2⟩ := h
  subst h2
  exact ⟨rfl, h1⟩

theorem add_subclass_index (st : VM) (sup cls : Nat) (hs : sup < st.heap.length) :
    subclass_index (add_subclass st (.ref sup) cls) sup
      = subclass_index st sup ++ [.ref cls] := by
  cases h : try_as_Array st (get_ivar st (.ref sup) st.globals.sym_subclasses) with
  | none =>
    have hne : sup ≠ st.heap.length := Nat.ne_of_lt hs
    have hne2 : st.heap.length ≠ sup := fun h => hne h.symm
    rw [add_subclass_none st _ _ h]
    simp only [subclass_index, h]
    simp [Array_create, Array_set, set_ivar, get_ivar, try_as_Array, cell_update, cell_alloc,
      hs, hne, hne2, Nat.lt_succ_of_lt hs, tbl_fetch_store_same, elements_set]
  | some ary =>
    obtain ⟨hiv, hty⟩ := try_as_Array_some st _ _ h
    have hlt := lt_length_of_array st ary hty
    rw [add_subclass_some st _ _ _ h]
    simp only [subclass_index, h]
    have hiv2 : get_ivar (Array_append st ary (.ref cls)) (.ref sup)
        (Array_append st ary (.ref cls)).globals.sym_subclasses = .ref ary := by
      rw [← hiv]
      simp only [get_ivar, Array_append, cell_update, update_globals]
      split <;> simp_all
    simp only [hiv2]
    simp [try_as_Array, Array_append, cell_update, hlt, hty]

theorem as_Class_some (st : VM) (o : Object) (c : Nat) (h : as_Class st o = some c) :
    o = .ref c ∧ (st.cell c).is_class = true := by
  cases o <;> simp [as_Class] at h
  rename_i a
  obtain ⟨h1, h2⟩ := h
  subst h2
  exact ⟨rfl, h1⟩

theorem Class_create_fst (st : VM) (sup : Nat) : (Class_create st sup).1 = st.heap.length := rfl

theorem open_class_under_unbound (ext : Externals) (st : VM) (name : Symbol) (super : Object)
    (under sup : Nat) (hfree : get_const st under name = none)
    (hsup : as_Class st (resolve_super st super) = some sup) :
    ∃ n, vm_open_class_under ext st name super under =
      (.value (.ref st.heap.length),
        add_subclass (created_state st sup under name n) (.ref sup) st.heap.length) := by
  have hres := (as_Class_some st _ _ hsup).1
  rw [hres] at hsup
  by_cases hu : under = st.globals.object
  · refine ⟨.symbol name, ?_⟩
    simp only [vm_open_class_under, hfree, hsup, hres, created_state]
    simp [hu, Class_create_fst]
  · refine ⟨ext.scoped_name ((Class_create st sup).2.cell under).name name, ?_⟩
    simp only [vm_open_class_under, hfree, hsup, hres, created_state]
    simp [hu, Module_set_name, Class_create_fst]

theorem created_state_cell (st : VM) (sup under : Nat) (name : Symbol) (n : Object) (b : Nat)
    (hu : under < st.heap.length) :
    (created_state st sup under name n).cell b =
      if b = under then
        { st.cell under with
          constants := tbl_store (st.cell under).constants name (.ref st.heap.length) }
      else if b = st.heap.length then
        { obj_type := .ClassType
          superclass := some sup
          instance_type := (st.cell sup).instance_type
          type_info_type := (st.cell sup).type_info_type
          packed_size := (st.cell sup).packed_size
          name := n }
      else st.cell b := by
  have hne : under ≠ st.heap.length := Nat.ne_of_lt hu
  simp only [created_state, set_const, Module_name_set, Class_create, cell_update, cell_alloc,
    update_length, alloc_length]
  by_cases h1 : b = under
  · subst h1; simp [hu, hne, Nat.lt_succ_of_lt hu]
  · by_cases h2 : b = st.heap.length
    · subst h2; simp [h1]
    · simp [h1, h2]

theorem created_state_length (st : VM) (sup under : Nat) (name : Symbol) (n : Object) :
    (created_state st sup under name n).heap.length = st.heap.length + 1 := by
  simp [created_state, set_const, Module_name_set, Class_create]

theorem created_state_globals (st : VM) (sup under : Nat) (name : Symbol) (n : Object) :
    (created_state st sup under name n).globals = st.globals := rfl

theorem created_state_index (st : VM) (sup under : Nat) (name : Symbol) (n : Object)
    (hu : under < st.heap.length) :
    subclass_index (created_state st sup under name n) sup = subclass_index st sup := by
  have key : ∀ b, ((created_state st sup under name n).cell b).ivars = (st.cell b).ivars ∧
      ((created_state st sup under name n).cell b).elements = (st.cell b).elements ∧
      (((created_state st sup under name n).cell b).obj_type = .ArrayType ↔
        (st.cell b).obj_type = .ArrayType) := by
    intro b
    rw [created_state_cell st sup under name n b hu]
    by_cases h1 : b = under
    · subst h1; simp
    · by_cases h2 : b = st.heap.length
      · subst h2
        simp [h1, cell_of_length_le st st.heap.length (Nat.le_refl _)]
        decide
      · simp [h1, h2]
  simp only [subclass_index, get_ivar, created_state_globals, (key sup).1]
  cases (tbl_fetch (st.cell sup).ivars st.globals.sym_subclasses).getD Object.nil <;>
    simp [try_as_Array]
  rename_i a
  by_cases ha : (st.cell a).obj_type = .ArrayType
  · simp [ha, (key a).2.2.mpr ha, (key a).2.1]
  · have ha2 : ¬ ((created_state st sup under name n).cell a).obj_type = .ArrayType :=
      fun h => ha ((key a).2.2.mp h)
    simp [ha, ha2]

theorem add_subclass_frame (st : VM) (sup sub b : Nat) (hb : b < st.heap.length) :
    ((add_subclass st (.ref sup) sub).cell b).constants = (st.cell b).constants ∧
    ((add_subclass st (.ref sup) sub).cell b).superclass = (st.cell b).superclass ∧
    ((add_subclass st (.ref sup) sub).cell b).obj_type = (st.cell b).obj_type := by
  have hne : b ≠ st.heap.length := Nat.ne_of_lt hb
  cases h : try_as_Array st (get_ivar st (.ref sup) st.globals.sym_subclasses) with
  | none =>
    rw [add_subclass_none st _ _ h]
    simp only [set_ivar, Array_set, Array_create, cell_update, cell_alloc, alloc_fst,
      update_length, alloc_length]
    by_cases h1 : b = sup
    · subst h1; simp [hne, Nat.lt_succ_of_lt hb]
    · simp [h1, hne]
  | some ary =>
    rw [add_subclass_some st _ _ _ h]
    simp only [Array_append, cell_update]
    split <;> simp_all

theorem add_subclass_length_le (st : VM) (sup sub : Nat) :
    st.heap.length ≤ (add_subclass st (.ref sup) sub).heap.length := by
  cases h : try_as_Array st (get_ivar st (.ref sup) st.globals.sym_subclasses) with
  | none =>
    rw [add_subclass_none st _ _ h]
    simp [set_ivar, Array_set, Array_create]
  | some ary =>
    rw [add_subclass_some st _ _ _ h]
    simp [Array_append]

theorem open_class_under_bound_nil (ext : Externals) (st : VM) (name : Symbol) (under c : Nat)
    (hb : get_const st under name = some (.ref c)) (hc : (st.cell c).is_class = true) :
    vm_open_class_under ext st name .nil under = (.value (.ref c), st) := by
  simp [vm_open_class_under, hb, as_Class, hc, Object.nil_p]

theorem open_class_calls_bound (ext : Externals) (st : VM) (name : Symbol) (under c : Nat)
    (hb : get_const st under name = some (.ref c)) (hc : (st.cell c).is_class = true) (n : Nat) :
    open_class_calls ext name under n st = (List.replicate n (.value (.ref c)), st) := by
  induction n with
  | zero => rfl
  | succ k ih =>
    simp only [open_class_calls, open_class_under_bound_nil ext st name under c hb hc, ih,
      List.replicate_succ]

/-- After the creating path the new class cell is a class and the constant is
bound to it in `under`. -/
theorem created_then_bound (st : VM) (sup under : Nat) (name : Symbol) (n : Object)
    (hu : under < st.heap.length) :
    ((add_subclass (created_state st sup under name n) (.ref sup) st.heap.length).cell
        st.heap.length).is_class = true ∧
      get_const (add_subclass (created_state st sup under name n) (.ref sup) st.heap.length)
        under name = some (.ref st.heap.length) := by
  have hlen := created_state_length st sup under name n
  have hne : st.heap.length ≠ under := fun h => Nat.ne_of_lt hu h.symm
  have hfr := add_subclass_frame (created_state st sup under name n) sup st.heap.length
    st.heap.length (by omega)
  have hfu := add_subclass_frame (created_state st sup under name n) sup st.heap.length
    under (by omega)
  have hcn := created_state_cell st sup under name n st.heap.length hu
  have hcu := created_state_cell st sup under name n under hu
  simp only [hne, if_false, if_true] at hcn hcu
  constructor
  · simp [Cell.is_class, hfr.2.2, hcn]
  · simp [get_const, hfu.1, hcu, tbl_fetch_store_same]

/-- The primitive `vm_open_class` is `vm_open_class_under` at the module the
scope resolves to: the root object class for a nil scope. -/
theorem vm_open_class_resolves (ext : Externals) (st : VM) (name : Symbol) (sup : Object) :
    vm_open_class ext st name sup none
        = vm_open_class_under ext st name sup st.globals.object ∧
      ∀ sc : StaticScope, vm_open_class ext st name sup (some sc)
        = vm_open_class_under ext st name sup sc.module :=
  ⟨rfl, fun _ => rfl⟩

/-- C3: when `name` is not bound in module `under` and the resolved superclass
(the explicit one, or the root object class for nil) is a class `sup`,
`vm_open_class_under` returns a class at a fresh address whose superclass link
is `sup`; afterwards `name` is bound in `under` to exactly that class and the
subclass index of `sup` is its previous contents followed by the new class. -/
theorem open_class_creates_class (ext : Externals) (st : VM) (name : Symbol) (super : Object)
    (under sup : Nat)
    (hunder : (st.cell under).is_module = true)
    (hfree : get_const st under name = none)
    (hsup : as_Class st (resolve_super st super) = some sup) :
    ∃ cls st1, vm_open_class_under ext st name super under = (.value (.ref cls), st1) ∧
      st.heap.length ≤ cls ∧ cls < st1.heap.length ∧
      (st1.cell cls).is_class = true ∧
      (st1.cell cls).superclass = some sup ∧
      (super = .nil → sup = st.globals.object) ∧
      (super ≠ .nil → super = .ref sup) ∧
      get_const st1 under name = some (.ref cls) ∧
      subclass_index st1 sup = subclass_index st sup ++ [.ref cls] := by
  obtain ⟨n, hn⟩ := open_class_under_unbound ext st name super under sup hfree hsup
  have hu := lt_length_of_is_module st under hunder
  obtain ⟨hres, hsc⟩ := as_Class_some st _ _ hsup
  have hs := lt_length_of_is_class st sup hsc
  have hlen := created_state_length st sup under name n
  have hnew : st.heap.length < (created_state st sup under name n).heap.length := by omega
  have hfr := add_subclass_frame (created_state st sup under name n) sup st.heap.length
    st.heap.length hnew
  have hcn := created_state_cell st sup under name n st.heap.length hu
  have hne : st.heap.length ≠ under := fun h => Nat.ne_of_lt hu h.symm
  simp only [hne, if_false, if_true] at hcn
  obtain ⟨hclass, hbound⟩ := created_then_bound st sup under name n hu
  refine ⟨st.heap.length, _, hn, Nat.le_refl _, ?_, hclass, ?_, ?_, ?_, hbound, ?_⟩
  · exact Nat.lt_of_lt_of_le hnew (add_subclass_length_le _ _ _)
  · rw [hfr.2.1, hcn]
  · intro h
    subst h
    simpa [resolve_super, Object.nil_p] using hres.symm
  · intro h
    cases super with
    | nil => exact absurd rfl h
    | _ => exact hres
  · rw [add_subclass_index _ _ _ (by omega), created_state_index st sup under name n hu]

theorem open_class_creates_class_witness :
    (root_only.cell 0).is_module = true ∧ get_const root_only 0 5 = none ∧
      as_Class root_only (resolve_super root_only .nil) = some 0 ∧
      ∃ cls st1, vm_open_class_under sample_ext root_only 5 .nil 0 = (.value (.ref cls), st1) ∧
        root_only.heap.length ≤ cls ∧ cls < st1.heap.length ∧
        (st1.cell cls).is_class = true ∧
        (st1.cell cls).superclass = some 0 ∧
        (Object.nil = .nil → 0 = root_only.globals.object) ∧
        (Object.nil ≠ .nil → Object.nil = .ref 0) ∧
        get_const st1 0 5 = some (.ref cls) ∧
        subclass_index st1 0 = subclass_index root_only 0 ++ [.ref cls] :=
  ⟨by decide, by decide, by decide,
    open_class_creates_class sample_ext root_only 5 .nil 0 0 (by decide) (by decide) (by decide)⟩

/-- C1: when `name` is unbound in module `under`, or bound there to a class,
every call of a run of `vm_open_class_under(name, nil, under)` returns the class
the first call returns; when `name` was already bound to class `c0` that class
is `c0` and every call leaves the whole state, hence the registry, unchanged. -/
theorem open_class_reopen_idempotent (ext : Externals) (st : VM) (name : Symbol) (under : Nat)
    (hunder : (st.cell under).is_module = true)
    (hobj : (st.cell st.globals.object).is_class = true)
    (hname : get_const st under name = none ∨
      ∃ c, get_const st under name = some (.ref c) ∧ (st.cell c).is_class = true) :
    ∃ c, (vm_open_class_under ext st name .nil under).1 = .value (.ref c) ∧
      (∀ n, (open_class_calls ext name under n st).1 = List.replicate n (.value (.ref c))) ∧
      (∀ c0, get_const st under name = some (.ref c0) →
        c = c0 ∧ ∀ n, (open_class_calls ext name under n st).2 = st) := by
  rcases hname with hfree | ⟨c, hb, hc⟩
  · have hsup : as_Class st (resolve_super st .nil) = some st.globals.object := by
      simp [resolve_super, Object.nil_p, as_Class, hobj]
    obtain ⟨n, hcall⟩ :=
      open_class_under_unbound ext st name .nil under st.globals.object hfree hsup
    obtain ⟨hcls, hbound⟩ := created_then_bound st st.globals.object under name n
      (lt_length_of_is_module st under hunder)
    refine ⟨st.heap.length, by rw [hcall], ?_, ?_⟩
    · intro n
      cases n with
      | zero => rfl
      | succ k =>
        simp only [open_class_calls, hcall,
          open_class_calls_bound ext _ name under st.heap.length hbound hcls k,
          List.replicate_succ]
    · intro c0 h0
      rw [hfree] at h0
      exact absurd h0 (by simp)
  · refine ⟨c, by rw [open_class_under_bound_nil ext st name under c hb hc], ?_, ?_⟩
    · intro n
      rw [open_class_calls_bound ext st name under c hb hc n]
    · intro c0 h0
      rw [hb] at h0
      refine ⟨by simpa using h0, fun n => ?_⟩
      rw [open_class_calls_bound ext st name under c hb hc n]

theorem open_class_reopen_idempotent_witness :
    (root_only.cell 0).is_module = true ∧
      (root_only.cell root_only.globals.object).is_class = true ∧
      (get_const root_only 0 5 = none ∨
        ∃ c, get_const root_only 0 5 = some (.ref c) ∧ (root_only.cell c).is_class = true) ∧
      ∃ c, (vm_open_class_under sample_ext root_only 5 .nil 0).1 = .value (.ref c) ∧
        (∀ n, (open_class_calls sample_ext 5 0 n root_only).1
          = List.replicate n (.value (.ref c))) ∧
        (∀ c0, get_const root_only 0 5 = some (.ref c0) →
          c = c0 ∧ ∀ n, (open_class_calls sample_ext 5 0 n root_only).2 = root_only) :=
  ⟨by decide, by decide, Or.inl (by decide),
    open_class_reopen_idempotent sample_ext root_only 5 0 (by decide) (by decide)
      (Or.inl (by decide))⟩

theorem nil_p_eq_false (o : Object) (h : o ≠ .nil) : o.nil_p = false := by
  cases o <;> simp [Object.nil_p] at h ⊢

theorem subclass_index_congr (st st1 : VM) (hh : st1.heap = st.heap)
    (hg : st1.globals = st.globals) (k : Nat) : subclass_index st1 k = subclass_index st k := by
  have hcell : ∀ a, st1.cell a = st.cell a := fun a => by simp [VM.cell, hh]
  have hiv : ∀ o s, get_ivar st1 o s = get_ivar st o s := by
    intro o s
    cases o <;> simp [get_ivar, hcell]
  have hta : ∀ o, try_as_Array st1 o = try_as_Array st o := by
    intro o
    cases o <;> simp [try_as_Array, hcell]
  simp [subclass_index, hg, hiv, hta, hcell]

/-- C2: when `name` is bound in `under` to a class `c` whose true superclass is
`ts`, reopening with an explicit (non-nil) superclass other than `ts` returns no
class: it leaves with `NULL` and a pending superclass-mismatch type error naming
both classes (or, when the given object is no module at all, with the cast's
type error), and heap and globals are untouched, so `c` keeps its superclass,
the constant still names `c`, nothing is allocated and every subclass index is
as before. Reopening with `ts` itself returns `c` and changes nothing. -/
theorem open_class_superclass_mismatch (ext : Externals) (st : VM) (name : Symbol)
    (super : Object) (under c ts : Nat)
    (hb : get_const st under name = some (.ref c))
    (hc : (st.cell c).is_class = true)
    (hts : ext.true_superclass st c = some ts)
    (hnn : super ≠ .nil) :
    (super ≠ .ref ts →
      (∀ o, (vm_open_class_under ext st name super under).1 ≠ .value o) ∧
      (∀ s, super = .ref s → (st.cell s).is_module = true →
        vm_open_class_under ext st name super under =
          (.null, raise_exception st
            { expected := .ClassType, object := super,
              given_name := (st.cell s).name, previous_name := (st.cell ts).name })) ∧
      (as_Module st super = none →
        vm_open_class_under ext st name super under = (.type_error, st)) ∧
      (vm_open_class_under ext st name super under).2.heap = st.heap ∧
      (vm_open_class_under ext st name super under).2.globals = st.globals ∧
      get_const (vm_open_class_under ext st name super under).2 under name = some (.ref c) ∧
      ((vm_open_class_under ext st name super under).2.cell c).superclass
        = (st.cell c).superclass ∧
      (∀ k, subclass_index (vm_open_class_under ext st name super under).2 k
        = subclass_index st k)) ∧
    (super = .ref ts → vm_open_class_under ext st name super under = (.value (.ref c), st)) := by
  have hnil := nil_p_eq_false super hnn
  have hcast : as_Class st (.ref c) = some c := by simp [as_Class, hc]
  constructor
  · intro hne
    have hne2 : ¬ Object.ref ts = super := fun h => hne h.symm
    have hcall : vm_open_class_under ext st name super under =
        match as_Module st super with
        | none => (.type_error, st)
        | some given =>
          (.null, raise_exception st
            { expected := .ClassType, object := super,
              given_name := (st.cell given).name, previous_name := (st.cell ts).name }) := by
      simp only [vm_open_class_under, hb, hcast, hnil, hts]
      simp [hne2]
    have hstate : (vm_open_class_under ext st name super under).2.heap = st.heap ∧
        (vm_open_class_under ext st name super under).2.globals = st.globals := by
      rw [hcall]
      cases as_Module st super <;> simp [raise_exception]
    have hcell : ∀ a, (vm_open_class_under ext st name super under).2.cell a = st.cell a :=
      fun a => by simp [VM.cell, hstate.1]
    refine ⟨?_, ?_, ?_, hstate.1, hstate.2, ?_, ?_, ?_⟩
    · intro o
      rw [hcall]
      cases as_Module st super <;> simp
    · intro s hs hm
      rw [hcall, hs]
      simp [as_Module, hm]
    · intro hm
      rw [hcall, hm]
    · simp [get_const, hcell, ← hb]
    · rw [hcell]
    · exact subclass_index_congr st _ hstate.1 hstate.2
  · intro heq
    simp only [vm_open_class_under, hb, hcast, hnil, hts]
    simp [heq]

theorem open_class_superclass_mismatch_witness :
    get_const animal_registry 0 7 = some (.ref 1) ∧
      (animal_registry.cell 1).is_class = true ∧
      sample_ext.true_superclass animal_registry 1 = some 0 ∧
      Object.ref 2 ≠ .nil ∧
      vm_open_class_under sample_ext animal_registry 7 (.ref 2) 0 =
        (.null, raise_exception animal_registry
          { expected := .ClassType, object := .ref 2,
            given_name := .symbol 8, previous_name := .symbol 1 }) ∧
      vm_open_class_under sample_ext animal_registry 7 (.ref 0) 0
        = (.value (.ref 1), animal_registry) :=
  have h := open_class_superclass_mismatch sample_ext animal_registry 7 (.ref 2) 0 1 0
    (by decide) (by decide) (by decide) (by decide)
  have h0 := open_class_superclass_mismatch sample_ext animal_registry 7 (.ref 0) 0 1 0
    (by decide) (by decide) (by decide) (by decide)
  ⟨by decide, by decide, by decide, by decide,
    (h.1 (by decide)).2.1 2 rfl (by decide), h0.2 rfl⟩

/-! ## Callability checks -/

theorem check_callable_walk_nil (ext : Externals) (st : VM) (sym : Symbol) (self : Object)
    (fuel : Nat) (skip : Bool) : check_callable_walk ext st sym self fuel none skip = some false := by
  cases fuel <;> rfl

theorem lookup_chain_cons (st : VM) (fuel : Nat) (start : Option Nat) (m : Nat) (tail : List Nat)
    (h : lookup_chain st fuel start = some (m :: tail)) :
    ∃ f, fuel = f + 1 ∧ start = some m ∧ lookup_chain st f (st.cell m).superclass = some tail := by
  cases start with
  | none => cases fuel <;> simp [lookup_chain] at h
  | some a =>
    cases fuel with
    | zero => simp [lookup_chain] at h
    | succ f =>
      simp only [lookup_chain, Option.map_eq_some'] at h
      obtain ⟨l, hl, hcons⟩ := h
      simp only [List.cons.injEq] at hcons
      obtain ⟨h1, h2⟩ := hcons
      subst h1 h2
      exact ⟨f, rfl, rfl, hl⟩

theorem lookup_chain_nil (st : VM) (fuel : Nat) (start : Option Nat)
    (h : lookup_chain st fuel start = some []) : start = none := by
  cases start with
  | none => rfl
  | some a => cases fuel <;> simp [lookup_chain] at h

/-- Modules without an entry for the selector, and stubs met while visibility
checks are already switched off, are passed over by the walk. -/
theorem check_callable_walk_skip (ext : Externals) (st : VM) (sym : Symbol) (self : Object)
    (skip : Bool) (pre tail : List Nat) :
    ∀ (fuel : Nat) (start : Option Nat),
      lookup_chain st fuel start = some (pre ++ tail) →
      (∀ x ∈ pre, find_entry (st.cell x).method_table sym = none ∨
        (skip = true ∧ ∃ e, find_entry (st.cell x).method_table sym = some e ∧
          e.stub_p = true)) →
      ∃ f s, lookup_chain st f s = some tail ∧
        check_callable_walk ext st sym self fuel start skip
          = check_callable_walk ext st sym self f s skip := by
  induction pre with
  | nil =>
    intro fuel start h _
    exact ⟨fuel, start, h, rfl⟩
  | cons x xs ih =>
    intro fuel start h hpre
    obtain ⟨f, hf, hs, hrest⟩ := lookup_chain_cons st fuel start x (xs ++ tail) h
    subst hf hs
    obtain ⟨f2, s2, hc2, hw2⟩ := ih f _ hrest (fun y hy => hpre y (List.mem_cons_of_mem _ hy))
    refine ⟨f2, s2, hc2, ?_⟩
    rw [← hw2]
    rcases hpre x (List.mem_cons_self _ _) with hnone | ⟨hskip, e, he, hstub⟩
    · simp [check_callable_walk, hnone]
    · subst hskip
      simp only [MethodTableBucket.stub_p, Bool.and_eq_true, Bool.not_eq_true'] at hstub
      simp [check_callable_walk, he, hstub.1, hstub.2]

/-- One step of the walk at a module holding a non-stub entry, or a stub that
fails the visibility check. -/
theorem check_callable_walk_entry (ext : Externals) (st : VM) (sym : Symbol) (self : Object)
    (f m : Nat) (skip : Bool) (e : MethodTableBucket)
    (he : find_entry (st.cell m).method_table sym = some e) :
    check_callable_walk ext st sym self (f + 1) (some m) skip =
      if e.undef_p then some false
      else if !skip && e.private_p then some false
      else if !skip && e.protected_p && !ext.kind_of_p st self m then some false
      else if e.method.nil_p then
        check_callable_walk ext st sym self f (st.cell m).superclass true
      else some true := by
  simp [check_callable_walk, he]

/-- The walk down to the first entry for the selector: the modules before it
hold no entry, so the result is the one-step result at the module holding it. -/
theorem check_callable_at_first_entry (ext : Externals) (st : VM) (fuel : Nat) (obj : Object)
    (sym : Symbol) (self : Object) (pre rest : List Nat) (m : Nat) (e : MethodTableBucket)
    (hchain : lookup_chain st fuel (lookup_begin st obj) = some (pre ++ m :: rest))
    (hpre : ∀ x ∈ pre, find_entry (st.cell x).method_table sym = none)
    (he : find_entry (st.cell m).method_table sym = some e) :
    ∃ f, lookup_chain st f (st.cell m).superclass = some rest ∧
      vm_check_callable ext st fuel obj sym self =
        if e.undef_p then some false
        else if e.private_p then some false
        else if e.protected_p && !ext.kind_of_p st self m then some false
        else if e.method.nil_p then
          check_callable_walk ext st sym self f (st.cell m).superclass true
        else some true := by
  obtain ⟨f, s, hc, hw⟩ := check_callable_walk_skip ext st sym self false pre (m :: rest) fuel _
    hchain (fun x hx => Or.inl (hpre x hx))
  obtain ⟨f1, hf, hs, hrest⟩ := lookup_chain_cons st f s m rest hc
  subst hf hs
  refine ⟨f1, hrest, ?_⟩
  rw [vm_check_callable, hw, check_callable_walk_entry ext st sym self f1 m false e he]
  simp

/-- C5: along a finite lookup chain, when the first entry for the selector is
not a stub it alone decides `vm_check_callable`: a tombstone gives false, a
public concrete method true, a protected concrete method true exactly when
`self` is kind-of the module holding the entry, a private concrete method false
(whatever `self` is, so in particular when it is not the receiver); and when no
module of the chain has an entry the result is false. -/
theorem check_callable_first_entry_decides (ext : Externals) (st : VM) (fuel : Nat)
    (obj : Object) (sym : Symbol) (self : Object) (chain : List Nat)
    (hchain : lookup_chain st fuel (lookup_begin st obj) = some chain) :
    (∀ pre m rest e, chain = pre ++ m :: rest →
      (∀ x ∈ pre, find_entry (st.cell x).method_table sym = none) →
      find_entry (st.cell m).method_table sym = some e → e.stub_p = false →
      (e.undef_p = true → vm_check_callable ext st fuel obj sym self = some false) ∧
      (e.concrete_p = true → e.visibility = .pub →
        vm_check_callable ext st fuel obj sym self = some true) ∧
      (e.concrete_p = true → e.visibility = .prot →
        vm_check_callable ext st fuel obj sym self = some (ext.kind_of_p st self m)) ∧
      (e.concrete_p = true → e.visibility = .priv →
        vm_check_callable ext st fuel obj sym self = some false)) ∧
    ((∀ x ∈ chain, find_entry (st.cell x).method_table sym = none) →
      vm_check_callable ext st fuel obj sym self = some false) := by
  constructor
  · intro pre m rest e hsplit hpre he _
    subst hsplit
    obtain ⟨f, _, hres⟩ :=
      check_callable_at_first_entry ext st fuel obj sym self pre rest m e hchain hpre he
    rw [hres]
    simp only [MethodTableBucket.concrete_p, MethodTableBucket.undef_p,
      MethodTableBucket.private_p, MethodTableBucket.protected_p]
    refine ⟨?_, ?_, ?_, ?_⟩
    · intro hu
      simp [hu]
    · intro hc hv
      simp [hv] at hc ⊢
      simp [hc]
    · intro hc hv
      simp [hv] at hc ⊢
      cases ext.kind_of_p st self m <;> simp [hc]
    · intro hc hv
      simp [hv]
  · intro hall
    obtain ⟨f, s, hc, hw⟩ := check_callable_walk_skip ext st sym self false chain [] fuel _
      (by simpa using hchain) (fun x hx => Or.inl (hall x hx))
    rw [vm_check_callable, hw, lookup_chain_nil st f s hc, check_callable_walk_nil]

theorem check_callable_first_entry_decides_witness :
    lookup_chain private_speak 1 (lookup_begin private_speak (.ref 1)) = some [0] ∧
      vm_check_callable sample_ext private_speak 1 (.ref 1) 9 (.ref 5) = some false :=
  ⟨by decide,
    ((check_callable_first_entry_decides sample_ext private_speak 1 (.ref 1) 9 (.ref 5) [0]
      (by decide)).1 [] 0 [] { name := 9, visibility := .priv, method := .ref 2 } rfl
      (by simp) (by decide) (by decide)).2.2.2 (by decide) (by decide)⟩

/-- C6: along a finite lookup chain whose first entry for the selector is a stub
passing the visibility check (public, or protected with `self` kind-of its
module), `vm_check_callable` walks on and the next non-stub entry deeper in the
chain decides: a concrete method of any visibility gives true, a tombstone
gives false; when the chain ends with only stubs or no entries the result is
false. -/
theorem check_callable_stub_transparent (ext : Externals) (st : VM) (fuel : Nat)
    (obj : Object) (sym : Symbol) (self : Object) (pre tail : List Nat) (m : Nat)
    (stub : MethodTableBucket)
    (hchain : lookup_chain st fuel (lookup_begin st obj) = some (pre ++ m :: tail))
    (hpre : ∀ x ∈ pre, find_entry (st.cell x).method_table sym = none)
    (hstub : find_entry (st.cell m).method_table sym = some stub)
    (hs : stub.stub_p = true)
    (hvis : stub.visibility = .pub ∨
      (stub.visibility = .prot ∧ ext.kind_of_p st self m = true)) :
    (∀ mid n rest e, tail = mid ++ n :: rest →
      (∀ x ∈ mid, find_entry (st.cell x).method_table sym = none ∨
        ∃ e1, find_entry (st.cell x).method_table sym = some e1 ∧ e1.stub_p = true) →
      find_entry (st.cell n).method_table sym = some e → e.stub_p = false →
      (e.concrete_p = true → vm_check_callable ext st fuel obj sym self = some true) ∧
      (e.undef_p = true → vm_check_callable ext st fuel obj sym self = some false)) ∧
    ((∀ x ∈ tail, find_entry (st.cell x).method_table sym = none ∨
        ∃ e1, find_entry (st.cell x).method_table sym = some e1 ∧ e1.stub_p = true) →
      vm_check_callable ext st fuel obj sym self = some false) := by
  obtain ⟨f, hrest, hres⟩ :=
    check_callable_at_first_entry ext st fuel obj sym self pre tail m stub hchain hpre hstub
  have hs2 := hs
  simp only [MethodTableBucket.stub_p, Bool.and_eq_true, Bool.not_eq_true'] at hs2
  have hpass : vm_check_callable ext st fuel obj sym self =
      check_callable_walk ext st sym self f (st.cell m).superclass true := by
    rw [hres]
    rcases hvis with hv | ⟨hv, hk⟩
    · simp [hs2.1, hs2.2, MethodTableBucket.private_p, MethodTableBucket.protected_p, hv]
    · simp [hs2.1, hs2.2, MethodTableBucket.private_p, MethodTableBucket.protected_p, hv, hk]
  rw [hpass]
  constructor
  · intro mid n rest e hsplit hmid he _
    subst hsplit
    obtain ⟨f2, s2, hc2, hw2⟩ := check_callable_walk_skip ext st sym self true mid (n :: rest)
      f _ hrest (fun x hx => (hmid x hx).imp id (fun h => ⟨rfl, h⟩))
    obtain ⟨f3, hf, hs3, _⟩ := lookup_chain_cons st f2 s2 n rest hc2
    subst hf hs3
    rw [hw2, check_callable_walk_entry ext st sym self f3 n true e he]
    simp only [MethodTableBucket.concrete_p, Bool.and_eq_true, Bool.not_eq_true']
    constructor
    · rintro ⟨h1, h2⟩
      simp [h1, h2]
    · intro h1
      simp [h1]
  · intro hall
    obtain ⟨f2, s2, hc2, hw2⟩ := check_callable_walk_skip ext st sym self true tail [] f _
      (by simpa using hrest) (fun x hx => (hall x hx).imp id (fun h => ⟨rfl, h⟩))
    rw [hw2, lookup_chain_nil st f2 s2 hc2, check_callable_walk_nil]

theorem check_callable_stub_transparent_witness :
    lookup_chain stub_over_private 2 (lookup_begin stub_over_private (.ref 2))
        = some ([] ++ 1 :: [0]) ∧
      find_entry (stub_over_private.cell 1).method_table 9
        = some { name := 9, visibility := .pub, method := .nil } ∧
      find_entry (stub_over_private.cell 0).method_table 9
        = some { name := 9, visibility := .priv, method := .ref 3 } ∧
      vm_check_callable sample_ext stub_over_private 2 (.ref 2) 9 (.ref 5) = some true :=
  ⟨by decide, by decide, by decide,
    ((check_callable_stub_transparent sample_ext stub_over_private 2 (.ref 2) 9 (.ref 5)
      [] [0] 1 { name := 9, visibility := .pub, method := .nil } (by decide) (by simp)
      (by decide) (by decide) (Or.inl rfl)).1 [] 0 []
      { name := 9, visibility := .priv, method := .ref 3 } rfl (by simp) (by decide)
      (by decide)).1 (by decide)⟩

/-- C7 (as stated, refuted): in `private_speak` the first entry for selector 9
on the chain of the instance at address 1 is a private concrete method, yet
`vm_check_callable` with `self` the receiver itself returns false, and returns
true for no amount of fuel. -/
theorem check_callable_private_self_counterexample :
    lookup_chain private_speak 1 (lookup_begin private_speak (.ref 1)) = some [0] ∧
      find_entry (private_speak.cell 0).method_table 9
        = some { name := 9, visibility := .priv, method := .ref 2 } ∧
      vm_check_callable sample_ext private_speak 1 (.ref 1) 9 (.ref 1) = some false ∧
      ∀ fuel, vm_check_callable sample_ext private_speak fuel (.ref 1) 9 (.ref 1)
        ≠ some true := by
  refine ⟨by decide, by decide, by decide, ?_⟩
  intro fuel
  cases fuel with
  | zero => decide
  | succ f =>
    have h : vm_check_callable sample_ext private_speak (f + 1) (.ref 1) 9 (.ref 1)
        = some false := by
      simp [vm_check_callable, lookup_begin, private_speak, VM.cell, check_callable_walk,
        find_entry, MethodTableBucket.undef_p, MethodTableBucket.private_p]
    rw [h]
    decide

/-- C7 (amended): when the first entry for the selector along the receiver's
finite lookup chain is a private concrete method, `vm_check_callable` returns
false for every `self`, the receiver itself included. -/
theorem check_callable_private_always_false (ext : Externals) (st : VM) (fuel : Nat)
    (obj : Object) (sym : Symbol) (pre rest : List Nat) (m : Nat) (e : MethodTableBucket)
    (hchain : lookup_chain st fuel (lookup_begin st obj) = some (pre ++ m :: rest))
    (hpre : ∀ x ∈ pre, find_entry (st.cell x).method_table sym = none)
    (he : find_entry (st.cell m).method_table sym = some e)
    (hc : e.concrete_p = true) (hv : e.visibility = .priv) :
    ∀ self, vm_check_callable ext st fuel obj sym self = some false := by
  intro self
  have _ := hc
  obtain ⟨f, _, hres⟩ :=
    check_callable_at_first_entry ext st fuel obj sym self pre rest m e hchain hpre he
  rw [hres]
  simp [MethodTableBucket.undef_p, MethodTableBucket.private_p, hv]

theorem check_callable_private_always_false_witness :
    lookup_chain private_speak 1 (lookup_begin private_speak (.ref 1)) = some ([] ++ 0 :: []) ∧
      find_entry (private_speak.cell 0).method_table 9
        = some { name := 9, visibility := .priv, method := .ref 2 } ∧
      ∀ self, vm_check_callable sample_ext private_speak 1 (.ref 1) 9 self = some false :=
  ⟨by decide, by decide,
    check_callable_private_always_false sample_ext private_speak 1 (.ref 1) 9 [] [] 0
      { name := 9, visibility := .priv, method := .ref 2 } (by decide) (by simp) (by decide)
      (by decide) rfl⟩

theorem check_super_callable_walk_eq (ext : Externals) (st : VM) (sym : Symbol) (self : Object) :
    ∀ (fuel : Nat) (start : Option Nat),
      check_super_callable_walk st sym fuel start
        = check_callable_walk ext st sym self fuel start true := by
  intro fuel
  induction fuel with
  | zero =>
    intro start
    cases start <;> rfl
  | succ f ih =>
    intro start
    cases start with
    | none => rfl
    | some m =>
      simp only [check_super_callable_walk, check_callable_walk, ih]
      cases find_entry (st.cell m).method_table sym with
      | none => rfl
      | some e =>
        cases hu : e.undef_p <;> cases hn : e.method.nil_p <;> simp [hu, hn]

theorem check_super_callable_walk_returns (st : VM) (sym : Symbol) :
    ∀ (fuel : Nat) (start : Option Nat) (chain : List Nat),
      lookup_chain st fuel start = some chain →
      ∃ b, check_super_callable_walk st sym fuel start = some b := by
  intro fuel
  induction fuel with
  | zero =>
    intro start chain h
    cases start with
    | none => exact ⟨false, rfl⟩
    | some m => simp [lookup_chain] at h
  | succ f ih =>
    intro start chain h
    cases start with
    | none => exact ⟨false, rfl⟩
    | some m =>
      simp only [lookup_chain, Option.map_eq_some'] at h
      obtain ⟨l, hl, _⟩ := h
      obtain ⟨b, hb⟩ := ih _ l hl
      simp only [check_super_callable_walk]
      cases find_entry (st.cell m).method_table sym with
      | none => exact ⟨b, hb⟩
      | some e =>
        cases hu : e.undef_p <;> cases hn : e.method.nil_p <;> simp [hu, hn, hb]

/-- C8 (as stated, refuted): in `private_super` the superclass of module 1 binds
selector 9 to a private concrete method; `vm_check_super_callable` from module 1
returns true while the walk of `vm_check_callable` begun at that superclass
(visibility checks on) returns false. -/
theorem check_super_callable_counterexample :
    (private_super.cell 1).superclass = some 0 ∧
      lookup_chain private_super 1 (private_super.cell 1).superclass = some [0] ∧
      vm_check_super_callable private_super 1 { module := 1, original_name := 9 }
        = some true ∧
      check_callable_walk sample_ext private_super 9 (.ref 1) 1
        (private_super.cell 1).superclass false = some false := by
  decide

/-- C8 (amended): for a module with a finite superclass chain,
`vm_check_super_callable` returns, and its result is that of the walk of
`vm_check_callable` begun at the module's superclass with visibility checks
switched off (`skip_vis_check` true from the start): the same tombstone and
stub rules, no visibility rule, whatever `self` is. -/
theorem check_super_callable_is_unchecked_walk (ext : Externals) (st : VM) (fuel : Nat)
    (call_frame : CallFrame) (self : Object) (chain : List Nat)
    (hchain : lookup_chain st fuel (st.cell call_frame.module).superclass = some chain) :
    ∃ b, vm_check_super_callable st fuel call_frame = some b ∧
      check_callable_walk ext st call_frame.original_name self fuel
        (st.cell call_frame.module).superclass true = some b := by
  obtain ⟨b, hb⟩ := check_super_callable_walk_returns st call_frame.original_name fuel _ chain
    hchain
  refine ⟨b, hb, ?_⟩
  rw [← check_super_callable_walk_eq ext st call_frame.original_name self fuel _]
  exact hb

theorem check_super_callable_is_unchecked_walk_witness :
    lookup_chain private_super 1 (private_super.cell 1).superclass = some [0] ∧
      ∃ b, vm_check_super_callable private_super 1 { module := 1, original_name := 9 }
          = some b ∧
        check_callable_walk sample_ext private_super 9 (.ref 1) 1
          (private_super.cell 1).superclass true = some b :=
  ⟨by decide,
    check_super_callable_is_unchecked_walk sample_ext private_super 1
      { module := 1, original_name := 9 } (.ref 1) [0] (by decide)⟩

/-! ## Attaching methods, dispatch caches and the global serial -/

@[simp] theorem update_trace (st : VM) (a : Nat) (f : Cell → Cell) :
    (st.update a f).trace = st.trace := rfl

@[simp] theorem update_global_cache (st : VM) (a : Nat) (f : Cell → Cell) :
    (st.update a f).global_cache = st.global_cache := rfl

@[simp] theorem update_ic_registry (st : VM) (a : Nat) (f : Cell → Cell) :
    (st.update a f).ic_registry = st.ic_registry := rfl

@[simp] theorem update_global_serial (st : VM) (a : Nat) (f : Cell → Cell) :
    (st.update a f).global_serial = st.global_serial := rfl

@[simp] theorem alloc_trace (st : VM) (c : Cell) : (st.alloc c).2.trace = st.trace := rfl

@[simp] theorem alloc_global_cache (st : VM) (c : Cell) :
    (st.alloc c).2.global_cache = st.global_cache := rfl

@[simp] theorem alloc_ic_registry (st : VM) (c : Cell) :
    (st.alloc c).2.ic_registry = st.ic_registry := rfl

@[simp] theorem alloc_global_serial (st : VM) (c : Cell) :
    (st.alloc c).2.global_serial = st.global_serial := rfl

/-- A cell update that leaves a field alone leaves it alone in every cell. -/
theorem cell_update_field {α : Type} (proj : Cell → α) (st : VM) (a b : Nat) (f : Cell → Cell)
    (hf : ∀ c, proj (f c) = proj c) : proj ((st.update a f).cell b) = proj (st.cell b) := by
  rw [cell_update]
  split
  · rename_i h
    rw [hf, h.2]
  · rfl

theorem find_entry_store_same (t : List MethodTableBucket) (name : Symbol) (exec : Object)
    (vis : Visibility) :
    find_entry (MethodTable_store t name exec vis) name
      = some { name := name, visibility := vis, method := exec } := by
  induction t with
  | nil => simp [MethodTable_store, find_entry]
  | cons e rest ih =>
    by_cases h : e.name = name
    · simp [MethodTable_store, find_entry, h]
    · simp [MethodTable_store, find_entry, h, ih]

/-- What `vm_reset_method_cache` leaves behind: the heap and the serial as they
were, no global-cache entry and no filled inline cache for the selector, and
the two clearing events appended to the trace, global cache first. -/
theorem reset_method_cache_effect (st : VM) (name : Symbol) :
    (vm_reset_method_cache st name).2.heap = st.heap ∧
    (vm_reset_method_cache st name).2.global_serial = st.global_serial ∧
    (∀ ce ∈ (vm_reset_method_cache st name).2.global_cache, ce.name ≠ name) ∧
    (∀ ic ∈ (vm_reset_method_cache st name).2.ic_registry, ic.name = name → ic.cached = none) ∧
    (vm_reset_method_cache st name).2.trace =
      st.trace ++ [.global_cache_clear name, .ic_registry_clear name] := by
  refine ⟨rfl, rfl, ?_, ?_, ?_⟩
  · intro ce hce
    simp only [vm_reset_method_cache, InlineCacheRegistry_clear, GlobalCache_clear,
      List.mem_filter] at hce
    simpa using hce.2
  · intro ic hic hname
    simp only [vm_reset_method_cache, InlineCacheRegistry_clear, GlobalCache_clear,
      List.mem_map] at hic
    obtain ⟨ic0, _, h0⟩ := hic
    by_cases h : ic0.name = name
    · simp only [h, if_true] at h0
      rw [← h0]
    · simp only [h, if_false] at h0
      subst h0
      exact absurd hname h
  · simp [vm_reset_method_cache, InlineCacheRegistry_clear, GlobalCache_clear]

/-- What `Module::add_method` leaves behind in an allocated module. -/
theorem add_method_effect (ext : Externals) (st : VM) (mod : Nat) (name : Symbol) (exec : Object)
    (hmod : mod < st.heap.length) :
    find_entry ((Module_add_method ext st mod name exec).cell mod).method_table name
        = some { name := name, visibility := ext.add_method_visibility, method := exec } ∧
      (Module_add_method ext st mod name exec).trace = st.trace ++ [.table_store mod name] := by
  constructor
  · have h : (Module_add_method ext st mod name exec).cell mod =
        (st.update mod fun c =>
          { c with method_table :=
              MethodTable_store c.method_table name exec ext.add_method_visibility }).cell mod :=
      rfl
    rw [h, cell_update]
    simp [hmod, find_entry_store_same]
  · rfl

theorem Object_metaclass_shared (st : VM) (recv : Object) :
    (Object_metaclass st recv).2.trace = st.trace ∧
    (Object_metaclass st recv).2.global_cache = st.global_cache ∧
    (Object_metaclass st recv).2.ic_registry = st.ic_registry ∧
    (Object_metaclass st recv).2.global_serial = st.global_serial := by
  cases recv with
  | ref a =>
    simp only [Object_metaclass]
    cases (st.cell a).klass with
    | none => exact ⟨rfl, rfl, rfl, rfl⟩
    | some k =>
      by_cases h : (st.cell k).obj_type = .MetaClassType
      · simp [h]
      · simp only [h, if_false]
        exact ⟨rfl, rfl, rfl, rfl⟩
  | _ => exact ⟨rfl, rfl, rfl, rfl⟩

/-- The metaclass of a heap object is always an allocated cell. -/
theorem Object_metaclass_ref_allocated (st : VM) (a : Nat) :
    (Object_metaclass st (.ref a)).1 < (Object_metaclass st (.ref a)).2.heap.length := by
  simp only [Object_metaclass]
  cases (st.cell a).klass with
  | none => simp
  | some k =>
    by_cases h : (st.cell k).obj_type = .MetaClassType
    · simp only [h, if_true]
      by_contra hlt
      rw [cell_of_length_le st k (Nat.le_of_not_lt hlt)] at h
      exact absurd h (by decide)
    · simp [h]

theorem formalize_method_table (st : VM) (method b : Nat) :
    ((CompiledMethod_formalize st method).cell b).method_table = (st.cell b).method_table :=
  cell_update_field Cell.method_table st method b _ (fun _ => rfl)

theorem specialize_method_table (st : VM) (method b : Nat) (ti : object_type) :
    ((CompiledMethod_specialize st method ti).cell b).method_table
      = (st.cell b).method_table :=
  cell_update_field Cell.method_table st method b _ (fun _ => rfl)

/-- Clearing the caches after a state in which the table of `mod` already binds
the selector, with the store as the last event, gives the attached outcome. -/
theorem attached_of_reset (st S : VM) (mod : Nat) (name : Symbol) (method : Nat)
    (vis : Visibility)
    (hentry : find_entry (S.cell mod).method_table name
      = some { name := name, visibility := vis, method := .ref method })
    (htrace : S.trace = st.trace ++ [.table_store mod name]) :
    attached_and_invalidated st (.value (.ref method), (vm_reset_method_cache S name).2) mod
      name method := by
  obtain ⟨hheap, _, hgc, hic, htr⟩ := reset_method_cache_effect S name
  have hcell : (vm_reset_method_cache S name).2.cell mod = S.cell mod := by
    simp [VM.cell, hheap]
  refine ⟨rfl, ⟨{ name := name, visibility := vis, method := .ref method }, ?_, rfl⟩,
    hgc, hic, ?_⟩
  · show find_entry ((vm_reset_method_cache S name).2.cell mod).method_table name = _
    rw [hcell, hentry]
  · show (vm_reset_method_cache S name).2.trace = _
    rw [htr, htrace]
    simp

/-- C4: after `vm_add_method` (target: the scope's method-definition module) or
`vm_attach_method` (target: the receiver's metaclass) returns, the target's
method table binds the selector to the given method, neither the global cache
nor the inline-cache registry holds a resolution for the selector, and both
were cleared after the table store, as the last events of the call. No
hypothesis distinguishes class targets from other modules: the clearing
happens on every path. -/
theorem attach_method_binds_and_invalidates (ext : Externals) (st : VM) (name : Symbol)
    (method : Nat) (scope : StaticScope) (vis recv : Object)
    (hmod : scope.for_method_definition < st.heap.length)
    (hmeta : (Object_metaclass st recv).1 < (Object_metaclass st recv).2.heap.length) :
    attached_and_invalidated st (vm_add_method ext st name method scope vis)
        scope.for_method_definition name method ∧
      attached_and_invalidated st (vm_attach_method ext st name method scope recv)
        (Object_metaclass st recv).1 name method := by
  constructor
  · have h1 : scope.for_method_definition < (method_scope_serial st method scope 0).heap.length := by
      simpa [method_scope_serial] using hmod
    obtain ⟨hentry, htrace⟩ := add_method_effect ext (method_scope_serial st method scope 0)
      scope.for_method_definition name (.ref method) h1
    have htrace2 : (Module_add_method ext (method_scope_serial st method scope 0)
        scope.for_method_definition name (.ref method)).trace
          = st.trace ++ [.table_store scope.for_method_definition name] := by
      rw [htrace]
      rfl
    unfold vm_add_method
    simp only []
    split
    · split
      · refine attached_of_reset st _ _ name method ext.add_method_visibility ?_ ?_
        · rw [specialize_method_table, formalize_method_table]
          exact hentry
        · exact htrace2
      · refine attached_of_reset st _ _ name method ext.add_method_visibility ?_ ?_
        · rw [formalize_method_table]
          exact hentry
        · exact htrace2
    · exact attached_of_reset st _ _ name method ext.add_method_visibility hentry htrace2
  · have h1 : (Object_metaclass st recv).1 <
        (method_scope_serial (Object_metaclass st recv).2 method scope 0).heap.length := by
      simpa [method_scope_serial] using hmeta
    obtain ⟨hentry, htrace⟩ := add_method_effect ext
      (method_scope_serial (Object_metaclass st recv).2 method scope 0)
      (Object_metaclass st recv).1 name (.ref method) h1
    have htrace2 : (Module_add_method ext
        (method_scope_serial (Object_metaclass st recv).2 method scope 0)
        (Object_metaclass st recv).1 name (.ref method)).trace
          = st.trace ++ [.table_store (Object_metaclass st recv).1 name] := by
      rw [htrace]
      show (Object_metaclass st recv).2.trace ++ _ = _
      rw [(Object_metaclass_shared st recv).1]
    exact attached_of_reset st _ _ name method ext.add_method_visibility hentry htrace2

theorem attach_method_binds_and_invalidates_witness :
    (0 : Nat) < cached_speak.heap.length ∧
      (Object_metaclass cached_speak (.ref 1)).1
        < (Object_metaclass cached_speak (.ref 1)).2.heap.length ∧
      attached_and_invalidated cached_speak
        (vm_add_method sample_ext cached_speak 9 2 { module := 0, for_method_definition := 0 }
          .nil) 0 9 2 ∧
      attached_and_invalidated cached_speak
        (vm_attach_method sample_ext cached_speak 9 2
          { module := 0, for_method_definition := 0 } (.ref 1))
        (Object_metaclass cached_speak (.ref 1)).1 9 2 :=
  ⟨by decide, by decide,
    attach_method_binds_and_invalidates sample_ext cached_speak 9 2
      { module := 0, for_method_definition := 0 } .nil (.ref 1) (by decide) (by decide)⟩

/-- C10: each operation that changes a method table, `vm_add_method`,
`vm_attach_method` and `attach_primitive`, leaves the global serial counter
strictly greater than it found it: the store into the method table advances
the counter, and nothing else in the three operations moves it. -/
theorem attach_advances_global_serial (ext : Externals) (st : VM) (name prim : Symbol)
    (method mod : Nat) (scope : StaticScope) (vis recv : Object) (is_meta : Bool) :
    st.global_serial < (vm_add_method ext st name method scope vis).2.global_serial ∧
    st.global_serial < (vm_attach_method ext st name method scope recv).2.global_serial ∧
    st.global_serial < (attach_primitive st mod is_meta name prim).global_serial := by
  have hadd : (vm_add_method ext st name method scope vis).2.global_serial
      = st.global_serial + 1 := by
    unfold vm_add_method
    simp only []
    rw [(reset_method_cache_effect _ name).2.1]
    split
    · split <;> rfl
    · rfl
  have hattach : (vm_attach_method ext st name method scope recv).2.global_serial
      = st.global_serial + 1 := by
    unfold vm_attach_method
    simp only []
    rw [(reset_method_cache_effect _ name).2.1]
    show (Object_metaclass st recv).2.global_serial + 1 = _
    rw [(Object_metaclass_shared st recv).2.2.2]
  have hprim : (attach_primitive st mod is_meta name prim).global_serial
      = st.global_serial + 1 := by
    cases is_meta with
    | false => rfl
    | true =>
      show (Object_metaclass st (.ref mod)).2.global_serial + 1 = _
      rw [(Object_metaclass_shared st (.ref mod)).2.2.2]
  rw [hadd, hattach, hprim]
  exact ⟨Nat.lt_succ_self _, Nat.lt_succ_self _, Nat.lt_succ_self _⟩

/-! ## Swapping an object's class -/

theorem vm_set_class_permitted (st : VM) (a cls : Nat)
    (h1 : (st.cell a).obj_type = (st.cell cls).type_info_type)
    (h2 : (st.cell a).obj_type = .PackedObjectType →
      klass_packed_size st a = (st.cell cls).packed_size) :
    vm_set_class st (.ref a) cls =
      (.value (.ref a), st.update a fun c => { c with klass := some cls }) := by
  by_cases hp : (st.cell a).obj_type = .PackedObjectType
  · have h3 := h2 hp
    rw [h1] at hp
    simp [vm_set_class, h1, kind_of_PackedObject, hp, h3]
  · rw [h1] at hp
    simp [vm_set_class, h1, kind_of_PackedObject, hp]

theorem vm_set_class_refused (st : VM) (obj : Object) (cls : Nat)
    (h : ¬ set_class_permitted st obj cls) : vm_set_class st obj cls = (.failure, st) := by
  cases obj with
  | ref a =>
    by_cases h1 : (st.cell a).obj_type = (st.cell cls).type_info_type
    · by_cases hp : (st.cell a).obj_type = .PackedObjectType
      · have h2 : klass_packed_size st a ≠ (st.cell cls).packed_size :=
          fun h2 => h ⟨a, rfl, h1, fun _ => h2⟩
        rw [h1] at hp
        simp [vm_set_class, kind_of_PackedObject, h2, h1, hp]
      · exact absurd ⟨a, rfl, h1, fun hp2 => absurd hp2 hp⟩ h
    · simp [vm_set_class, h1]
  | _ => rfl

/-- C9: `vm_set_class` succeeds exactly when the object is a heap reference,
its representation type is the target class's declared type and, for a packed
object, the packed size of its current class is that of the target class. On
success it returns the same object, whose class pointer is now the target
class, every other cell being untouched; otherwise it returns the
primitive-failure value and the state, hence the object's class, is unchanged. -/
theorem set_class_permitted_exactly (st : VM) (obj : Object) (cls : Nat)
    (hvalid : ∀ a, obj = .ref a → a < st.heap.length) :
    ((vm_set_class st obj cls).1 = .value obj ↔ set_class_permitted st obj cls) ∧
    (set_class_permitted st obj cls →
      ∀ a, obj = .ref a →
        ((vm_set_class st obj cls).2.cell a).klass = some cls ∧
        ∀ b, b ≠ a → (vm_set_class st obj cls).2.cell b = st.cell b) ∧
    (¬ set_class_permitted st obj cls → vm_set_class st obj cls = (.failure, st)) := by
  refine ⟨⟨?_, ?_⟩, ?_, vm_set_class_refused st obj cls⟩
  · intro hv
    by_contra hn
    rw [vm_set_class_refused st obj cls hn] at hv
    exact absurd hv (by simp)
  · rintro ⟨a, ha, h1, h2⟩
    subst ha
    rw [vm_set_class_permitted st a cls h1 h2]
  · rintro ⟨a, ha, h1, h2⟩ a0 ha0
    subst ha
    simp only [Object.ref.injEq] at ha0
    subst ha0
    rw [vm_set_class_permitted st a cls h1 h2]
    constructor
    · simp [cell_update, hvalid a rfl]
    · intro b hb
      simp [cell_update, hb]

theorem set_class_permitted_exactly_witness :
    (∀ a, Object.ref 2 = .ref a → a < packed_point.heap.length) ∧
      set_class_permitted packed_point (.ref 2) 1 ∧
      (vm_set_class packed_point (.ref 2) 1).1 = .value (.ref 2) ∧
      ((vm_set_class packed_point (.ref 2) 1).2.cell 2).klass = some 1 :=
  have hv : ∀ a, Object.ref 2 = .ref a → a < packed_point.heap.length := by
    intro a ha
    simp only [Object.ref.injEq] at ha
    subst ha
    decide
  have hp : set_class_permitted packed_point (.ref 2) 1 :=
    ⟨2, rfl, by decide, fun _ => by decide⟩
  ⟨hv, hp, (set_class_permitted_exactly packed_point (.ref 2) 1 hv).1.mpr hp,
    ((set_class_permitted_exactly packed_point (.ref 2) 1 hv).2.1 hp 2 rfl).1⟩

/-! ## Throw and catch -/

/-- C11: whatever invoking the receiver's `call` does, `vm_catch` returns its
value when it returns one; when it unwinds (`NULL`) with a pending throw whose
destination is the catch tag, `vm_catch` returns the carried value as an
ordinary result and clears the pending unwind; when it unwinds with a throw
for another tag, or with any other raise reason, `vm_catch` returns `NULL` and
leaves the state, hence reason, destination and value, untouched. A throw
raised by `raise_throw(tag, v)` is caught by the catch of the same tag, with
result `v`, and by no catch of another tag. -/
theorem catch_absorbs_matching_throw (d : Dispatcher) (st : VM) (dest : Symbol)
    (obj : Object) :
    (∀ r s, d.send st d.sym_call obj (lookup_begin st obj) = (some r, s) →
      vm_catch d st dest obj = (.value r, s)) ∧
    (∀ s, d.send st d.sym_call obj (lookup_begin st obj) = (none, s) →
      s.thread_state.raise_reason = .cCatchThrow →
      s.thread_state.throw_dest = .symbol dest →
      vm_catch d st dest obj = (.value s.thread_state.raise_value, clear_return s) ∧
      (vm_catch d st dest obj).2.thread_state.raise_reason = .cNone) ∧
    (∀ s, d.send st d.sym_call obj (lookup_begin st obj) = (none, s) →
      (s.thread_state.raise_reason ≠ .cCatchThrow ∨
        s.thread_state.throw_dest ≠ .symbol dest) →
      vm_catch d st dest obj = (.null, s)) ∧
    (∀ s0 tag v, d.send st d.sym_call obj (lookup_begin st obj)
        = (none, raise_throw s0 tag v) →
      (tag = dest → (vm_catch d st dest obj).1 = .value v) ∧
      (tag ≠ dest → vm_catch d st dest obj = (.null, raise_throw s0 tag v))) := by
  refine ⟨?_, ?_, ?_, ?_⟩
  · intro r s h
    simp [vm_catch, h]
  · intro s h hr hd
    have hcall : vm_catch d st dest obj
        = (.value s.thread_state.raise_value, clear_return s) := by
      simp [vm_catch, h, hr, hd]
    exact ⟨hcall, by rw [hcall]; rfl⟩
  · intro s h hne
    rcases hne with hr | hd
    · simp [vm_catch, h, hr]
    · simp [vm_catch, h, hd]
  · intro s0 tag v h
    constructor
    · intro ht
      subst ht
      simp [vm_catch, h, raise_throw]
    · intro ht
      simp [vm_catch, h, raise_throw, ht]

theorem catch_absorbs_matching_throw_witness :
    throwing_dispatcher.send root_only throwing_dispatcher.sym_call (.ref 0)
        (lookup_begin root_only (.ref 0)) = (none, raise_throw root_only 7 (.fixnum 42)) ∧
      (vm_catch throwing_dispatcher root_only 7 (.ref 0)).1 = .value (.fixnum 42) ∧
      vm_catch throwing_dispatcher root_only 8 (.ref 0)
        = (.null, raise_throw root_only 7 (.fixnum 42)) :=
  have h := (catch_absorbs_matching_throw throwing_dispatcher root_only 7 (.ref 0)).2.2.2
    root_only 7 (.fixnum 42) rfl
  have h8 := (catch_absorbs_matching_throw throwing_dispatcher root_only 8 (.ref 0)).2.2.2
    root_only 7 (.fixnum 42) rfl
  ⟨rfl, h.1 rfl, h8.2 (by decide)⟩

/-! ## Waiting for a child -/

/-- Interrupted calls are retried: the primitive goes on with the outcomes that
follow them. -/
theorem wait_pid_skips_interrupted (w : WaitStatusOps) (input_pid : Int) (options : Nat)
    (no_hang : Object) (pre rest : List WaitOutcome) :
    ∀ ps, (∀ x ∈ pre, x.interrupted = true) →
      ∃ ps1, vm_wait_pid_retry w input_pid options no_hang ps (pre ++ rest)
        = vm_wait_pid_retry w input_pid options no_hang ps1 rest := by
  induction pre with
  | nil =>
    intro ps _
    exact ⟨ps, rfl⟩
  | cons x xs ih =>
    intro ps hpre
    have hx := hpre x (List.mem_cons_self _ _)
    simp only [WaitOutcome.interrupted, Bool.and_eq_true, beq_iff_eq] at hx
    obtain ⟨ps1, hrec⟩ := ih
      (lock_lock ((lock_unlock ps .cUnlocked).log (.os_waitpid input_pid options)))
      (fun y hy => hpre y (List.mem_cons_of_mem _ hy))
    refine ⟨ps1, ?_⟩
    rw [← hrec]
    simp [vm_wait_pid_retry, hx.1, hx.2]

/-- The decoding of an outcome that is not an interrupted call. -/
theorem wait_pid_final_outcome (w : WaitStatusOps) (input_pid : Int) (options : Nat)
    (no_hang : Object) (ps : ProcessState) (o : WaitOutcome) (rest : List WaitOutcome)
    (ho : o.interrupted = false) :
    ∃ ps1, ps1.lock_held = true ∧
      vm_wait_pid_retry w input_pid options no_hang ps (o :: rest) =
        some (
          if o.pid = -1 then .obj .qfalse
          else if no_hang = .qtrue ∧ o.pid = 0 then .obj .nil
          else if input_pid > 0 then
            .obj (if w.WIFEXITED o.status then .fixnum (w.WEXITSTATUS o.status) else .nil)
          else
            .tuple (if w.WIFEXITED o.status then .fixnum (w.WEXITSTATUS o.status) else .nil)
              (.fixnum o.pid), ps1) := by
  refine ⟨lock_lock ((lock_unlock ps .cUnlocked).log (.os_waitpid input_pid options)),
    rfl, ?_⟩
  simp only [WaitOutcome.interrupted, Bool.and_eq_false_iff, beq_eq_false_iff_ne, ne_eq] at ho
  simp only [vm_wait_pid_retry]
  by_cases hp : o.pid = -1
  · have he : ¬ o.errno = .EINTR := by
      rcases ho with h | h
      · exact absurd hp h
      · exact h
    by_cases hc : o.errno = .ECHILD
    · simp [hp, hc]
    · simp [hp, hc, he]
  · simp only [hp, if_false]
    by_cases hn : no_hang = .qtrue ∧ o.pid = 0
    · simp [hn]
    · simp only [hn, if_false]
      by_cases hi : input_pid > 0
      · simp [hi]
      · simp [hi]

/-- Within the range of `pid_t` the narrowing changes nothing. -/
theorem to_pid_t_of_in_range (n : Int) (hlo : -2147483648 ≤ n) (hhi : n < 2147483648) :
    to_pid_t n = n := by
  unfold to_pid_t
  norm_num
  omega

/-- C12 (as stated, refuted): with `WIFEXITED`/`WEXITSTATUS` reading status 768
as "exited normally with code 3", a requested pid of 4294967295 is positive, yet
`vm_wait_pid` narrows it to -1 and returns the pair of 3 and the child's pid,
not 3 alone; and the requested pid -4294967295 is negative, yet it is narrowed
to 1 and 3 alone is returned, not the pair. -/
theorem wait_pid_wide_pid_counterexample :
    (0 : Int) < 4294967295 ∧ to_pid_t 4294967295 = -1 ∧
      sample_wait_ops.WIFEXITED 768 = true ∧ sample_wait_ops.WEXITSTATUS 768 = 3 ∧
      (vm_wait_pid sample_wait_ops 4294967295 .qfalse {}
          [{ pid := 1234, errno := .other 0, status := 768 }]).map (·.1)
        = some (.tuple (.fixnum 3) (.fixnum 1234)) ∧
      (-4294967295 : Int) ≤ 0 ∧ to_pid_t (-4294967295) = 1 ∧
      (vm_wait_pid sample_wait_ops (-4294967295) .qfalse {}
          [{ pid := 1234, errno := .other 0, status := 768 }]).map (·.1)
        = some (.obj (.fixnum 3)) := by
  decide

/-- C12 (amended): with the outcomes of the successive `waitpid` calls given as
a list, `vm_wait_pid` returns, holding the lock again, the decoding of the
first outcome that is not an interrupted call, the interrupted ones before it
being retried: an error (`ECHILD` in particular) gives false; in non-blocking
mode a returned pid of 0 gives nil; otherwise a child that exited normally with
code `c` gives `c` when the requested pid, narrowed to the 32-bit `pid_t` that
is passed to `waitpid`, is positive, and the pair of `c` and the child's pid
when that narrowed pid is zero or negative; a child that did not exit normally
gives nil in place of `c`. For a requested pid within the range of `pid_t` the
narrowed pid is the requested pid itself. -/
theorem wait_pid_decodes_first_final_outcome (w : WaitStatusOps) (pid_obj : Int)
    (no_hang : Object) (ps : ProcessState) (pre : List WaitOutcome) (o : WaitOutcome)
    (rest : List WaitOutcome)
    (hpre : ∀ x ∈ pre, x.interrupted = true) (ho : o.interrupted = false) :
    ∃ r ps1, vm_wait_pid w pid_obj no_hang ps (pre ++ o :: rest) = some (r, ps1) ∧
      ps1.lock_held = true ∧
      (o.pid = -1 → o.errno = .ECHILD → r = .obj .qfalse) ∧
      (o.pid = -1 → r = .obj .qfalse) ∧
      (no_hang = .qtrue → o.pid = 0 → r = .obj .nil) ∧
      (o.pid ≠ -1 → ¬ (no_hang = .qtrue ∧ o.pid = 0) →
        (∀ c, w.WIFEXITED o.status = true → w.WEXITSTATUS o.status = c →
          (0 < to_pid_t pid_obj → r = .obj (.fixnum c)) ∧
          (to_pid_t pid_obj ≤ 0 → r = .tuple (.fixnum c) (.fixnum o.pid))) ∧
        (w.WIFEXITED o.status = false →
          (0 < to_pid_t pid_obj → r = .obj .nil) ∧
          (to_pid_t pid_obj ≤ 0 → r = .tuple .nil (.fixnum o.pid)))) ∧
      (-2147483648 ≤ pid_obj → pid_obj < 2147483648 → to_pid_t pid_obj = pid_obj) := by
  obtain ⟨ps0, hskip⟩ := wait_pid_skips_interrupted w (to_pid_t pid_obj)
    (if no_hang = .qtrue then 0 ||| w.WNOHANG else 0) no_hang pre (o :: rest) ps hpre
  obtain ⟨ps1, hheld, hfin⟩ := wait_pid_final_outcome w (to_pid_t pid_obj)
    (if no_hang = .qtrue then 0 ||| w.WNOHANG else 0) no_hang ps0 o rest ho
  have hcall : vm_wait_pid w pid_obj no_hang ps (pre ++ o :: rest)
      = vm_wait_pid_retry w (to_pid_t pid_obj)
          (if no_hang = .qtrue then 0 ||| w.WNOHANG else 0) no_hang ps0 (o :: rest) := by
    unfold vm_wait_pid
    exact hskip
  refine ⟨_, ps1, by rw [hcall, hfin], hheld, ?_, ?_, ?_, ?_, to_pid_t_of_in_range pid_obj⟩
  · intro hp _
    simp [hp]
  · intro hp
    simp [hp]
  · intro hn hz
    simp [hn, hz]
  · intro hp hn
    simp only [hp, hn, if_false]
    constructor
    · intro c hx hc
      constructor
      · intro hi
        simp [hi, hx, hc]
      · intro hi
        simp [not_lt.mpr hi, hx, hc]
    · intro hx
      constructor
      · intro hi
        simp [hi, hx]
      · intro hi
        simp [not_lt.mpr hi, hx]

theorem wait_pid_decodes_first_final_outcome_witness :
    (∀ x ∈ [({ pid := -1, errno := .EINTR, status := 0 } : WaitOutcome),
        { pid := -1, errno := .EINTR, status := 0 }], x.interrupted = true) ∧
      ({ pid := 1234, errno := .other 0, status := 768 } : WaitOutcome).interrupted = false ∧
      ∃ ps1, vm_wait_pid sample_wait_ops 1234 .qfalse {} interrupted_then_exit
          = some (.obj (.fixnum 3), ps1) ∧ ps1.lock_held = true :=
  have hpre : ∀ x ∈ [({ pid := -1, errno := .EINTR, status := 0 } : WaitOutcome),
      { pid := -1, errno := .EINTR, status := 0 }], x.interrupted = true := by decide
  have ho : ({ pid := 1234, errno := .other 0, status := 768 } : WaitOutcome).interrupted
      = false := by decide
  ⟨hpre, ho,
    match wait_pid_decodes_first_final_outcome sample_wait_ops 1234 .qfalse {}
      [{ pid := -1, errno := .EINTR, status := 0 }, { pid := -1, errno := .EINTR, status := 0 }]
      { pid := 1234, errno := .other 0, status := 768 } [] hpre ho with
    | ⟨_, ps1, hcall, hheld, _, _, _, hdec, _⟩ =>
      ⟨ps1, by
        have h := ((hdec (by decide) (by decide)).1 3 (by decide) (by decide)).1 (by decide)
        rw [← h]
        exact hcall, hheld⟩⟩

/-! ## Forking -/

theorem vm_fork_finish_held (env : ForkEnv) (ps : ProcessState) (h : ps.lock_held = true) :
    (vm_fork_finish env ps).2.lock_held = true := by
  unfold vm_fork_finish
  simp only []
  by_cases h0 : env.fork_result = 0 <;> by_cases hl : env.enable_llvm = true <;>
    by_cases h1 : env.fork_result = -1 <;>
    simp [h0, hl, h1, h, shared_reinit, LLVMState_on_fork, LLVMState_unpause, errno_error]

theorem vm_fork_finish_not_aborted (env : ForkEnv) (ps : ProcessState) :
    (vm_fork_finish env ps).1 ≠ .aborted := by
  unfold vm_fork_finish
  simp only []
  by_cases h1 : env.fork_result = -1 <;> simp [h1]

theorem vm_fork_finish_events (env : ForkEnv) (ps : ProcessState) :
    ∃ tail, (vm_fork_finish env ps).2.events = ps.events ++ tail := by
  unfold vm_fork_finish
  simp only []
  by_cases h0 : env.fork_result = 0 <;> by_cases hl : env.enable_llvm = true <;>
    by_cases h1 : env.fork_result = -1 <;>
    simp [h0, hl, h1, shared_reinit, LLVMState_on_fork, LLVMState_unpause, errno_error]

/-- C13: for every result of the initial unlock, of `::fork()` and of the child's
`try_lock` (which either acquires the lock or finds it busy), `vm_fork` aborts
exactly when the initial unlock fails or the child finds the fresh lock busy,
and whenever it returns or raises the lock is held. When the unlock succeeds
the lock is released at the moment `::fork()` is called, the unlock preceding
the fork in the log; then in the child (result 0, lock acquired) the lock has
been re-initialised once, then taken by `try_lock`, and is held, and 0 is
returned; otherwise the lock is taken again by `lock`, and in the parent
(result above 0) the child's pid is returned while on failure (result -1)
`NULL` is returned with a pending system-call error. -/
theorem fork_lock_protocol (env : ForkEnv) (ps : ProcessState)
    (htry : env.try_lock_result = .cLocked ∨ env.try_lock_result = .cLockBusy) :
    ((vm_fork env ps).1 = .aborted ↔
      env.unlock_result ≠ .cUnlocked ∨
        (env.fork_result = 0 ∧ env.try_lock_result = .cLockBusy)) ∧
    ((vm_fork env ps).1 ≠ .aborted → (vm_fork env ps).2.lock_held = true) ∧
    (env.unlock_result = .cUnlocked →
      (vm_fork_prologue env ps).lock_held = false ∧
      (∃ tail, (vm_fork env ps).2.events
        = (vm_fork_prologue env ps).events ++ [.os_fork] ++ tail) ∧
      (∃ head, (vm_fork_prologue env ps).events = head ++ [.lock_unlock]) ∧
      (env.fork_result = 0 → env.try_lock_result = .cLocked →
        (vm_fork env ps).1 = .fixnum 0 ∧
        (vm_fork env ps).2.lock_held = true ∧
        (vm_fork env ps).2.lock_inits = ps.lock_inits + 1 ∧
        (vm_fork env ps).2.pending_errno = ps.pending_errno ∧
        ∃ tail, (vm_fork env ps).2.events = (vm_fork_prologue env ps).events ++
          [.os_fork, .lock_init, .lock_try_lock] ++ tail) ∧
      (env.fork_result ≠ 0 →
        ∃ tail, (vm_fork env ps).2.events = (vm_fork_prologue env ps).events ++
          [.os_fork, .lock_lock] ++ tail) ∧
      (0 < env.fork_result →
        (vm_fork env ps).1 = .fixnum env.fork_result ∧
        (vm_fork env ps).2.lock_held = true ∧
        (vm_fork env ps).2.lock_inits = ps.lock_inits ∧
        (vm_fork env ps).2.pending_errno = ps.pending_errno) ∧
      (env.fork_result = -1 →
        (vm_fork env ps).1 = .null ∧
        (vm_fork env ps).2.lock_held = true ∧
        (vm_fork env ps).2.pending_errno = some fork_call)) := by
  have hpro_events : ∃ head, (vm_fork_prologue env ps).events = head ++ [.lock_unlock] := by
    unfold vm_fork_prologue lock_unlock
    exact ⟨_, rfl⟩
  have hpro_inits : (vm_fork_prologue env ps).lock_inits = ps.lock_inits := by
    unfold vm_fork_prologue lock_unlock LLVMState_pause
    by_cases hl : env.enable_llvm = true <;> simp [hl]
  have hpro_errno : (vm_fork_prologue env ps).pending_errno = ps.pending_errno := by
    unfold vm_fork_prologue lock_unlock LLVMState_pause
    by_cases hl : env.enable_llvm = true <;> simp [hl]
  by_cases hu : env.unlock_result = .cUnlocked
  · have hrel : (vm_fork_prologue env ps).lock_held = false := by
      unfold vm_fork_prologue lock_unlock
      simp [hu]
    by_cases h0 : env.fork_result = 0
    · by_cases hb : env.try_lock_result = .cLockBusy
      · have hcall : vm_fork env ps = (.aborted,
            (lock_try_lock (lock_init ((vm_fork_prologue env ps).log .os_fork))
              env.try_lock_result).log .lock_error_message) := by
          simp [vm_fork, hu, h0, hb]
        refine ⟨?_, ?_, fun _ => ⟨hrel, ?_, hpro_events, ?_, ?_, ?_, ?_⟩⟩
        · rw [hcall]
          simp [h0, hb]
        · rw [hcall]
          simp
        · rw [hcall]
          exact ⟨[.lock_init, .lock_try_lock, .lock_error_message], by
            simp [ProcessState.log, lock_try_lock, lock_init]⟩
        · intro _ hl
          rw [hb] at hl
          exact absurd hl (by decide)
        · intro hne
          exact absurd h0 hne
        · intro hpos
          omega
        · intro hneg
          omega
      · have hl : env.try_lock_result = .cLocked := htry.resolve_right hb
        have hcall : vm_fork env ps = vm_fork_finish env
            (lock_try_lock (lock_init ((vm_fork_prologue env ps).log .os_fork))
              env.try_lock_result) := by
          simp [vm_fork, hu, h0, hb]
        have hheld : (lock_try_lock (lock_init ((vm_fork_prologue env ps).log .os_fork))
            env.try_lock_result).lock_held = true := by
          simp [lock_try_lock, hl]
        obtain ⟨tail, htail⟩ := vm_fork_finish_events env
          (lock_try_lock (lock_init ((vm_fork_prologue env ps).log .os_fork))
            env.try_lock_result)
        refine ⟨?_, ?_, fun _ => ⟨hrel, ?_, hpro_events, ?_, ?_, ?_, ?_⟩⟩
        · rw [hcall]
          simp [vm_fork_finish_not_aborted, hu, hb]
        · intro _
          rw [hcall]
          exact vm_fork_finish_held env _ hheld
        · rw [hcall, htail]
          exact ⟨[.lock_init, .lock_try_lock] ++ tail, by
            simp [ProcessState.log, lock_try_lock, lock_init]⟩
        · intro _ _
          rw [hcall]
          refine ⟨?_, vm_fork_finish_held env _ hheld, ?_, ?_, ?_⟩
          · simp [vm_fork_finish, h0]
          · by_cases hll : env.enable_llvm = true <;>
              simp [vm_fork_finish, h0, hll, shared_reinit, LLVMState_on_fork, lock_try_lock,
                lock_init, ProcessState.log, hpro_inits]
          · by_cases hll : env.enable_llvm = true <;>
              simp [vm_fork_finish, h0, hll, shared_reinit, LLVMState_on_fork, lock_try_lock,
                lock_init, ProcessState.log, hpro_errno]
          · rw [htail]
            exact ⟨tail, by simp [ProcessState.log, lock_try_lock, lock_init]⟩
        · intro hne
          exact absurd h0 hne
        · intro hpos
          omega
        · intro hneg
          omega
    · have hcall : vm_fork env ps = vm_fork_finish env
          (lock_lock ((vm_fork_prologue env ps).log .os_fork)) := by
        simp [vm_fork, hu, h0]
      obtain ⟨tail, htail⟩ := vm_fork_finish_events env
        (lock_lock ((vm_fork_prologue env ps).log .os_fork))
      refine ⟨?_, ?_, fun _ => ⟨hrel, ?_, hpro_events, ?_, ?_, ?_, ?_⟩⟩
      · rw [hcall]
        simp [vm_fork_finish_not_aborted, hu, h0]
      · intro _
        rw [hcall]
        exact vm_fork_finish_held env _ rfl
      · rw [hcall, htail]
        exact ⟨[.lock_lock] ++ tail, by simp [ProcessState.log, lock_lock]⟩
      · intro hz
        exact absurd hz h0
      · intro _
        rw [hcall, htail]
        exact ⟨tail, by simp [ProcessState.log, lock_lock]⟩
      · intro hpos
        have hne : ¬ env.fork_result = -1 := by omega
        rw [hcall]
        refine ⟨?_, vm_fork_finish_held env _ rfl, ?_, ?_⟩
        · simp [vm_fork_finish, hne]
        · by_cases hll : env.enable_llvm = true <;>
            simp [vm_fork_finish, h0, hne, hll, LLVMState_unpause, lock_lock,
              ProcessState.log, hpro_inits]
        · by_cases hll : env.enable_llvm = true <;>
            simp [vm_fork_finish, h0, hne, hll, LLVMState_unpause, lock_lock,
              ProcessState.log, hpro_errno]
      · intro hneg
        rw [hcall]
        refine ⟨?_, vm_fork_finish_held env _ rfl, ?_⟩
        · simp [vm_fork_finish, hneg]
        · by_cases hll : env.enable_llvm = true <;>
            simp [vm_fork_finish, hneg, hll, errno_error]
  · have hcall : vm_fork env ps = (.aborted, vm_fork_prologue env ps) := by
      simp [vm_fork, hu]
    refine ⟨?_, ?_, fun h => absurd h hu⟩
    · rw [hcall]
      simp [hu]
    · rw [hcall]
      simp

theorem fork_lock_protocol_witness :
    (child_fork.try_lock_result = .cLocked ∨ child_fork.try_lock_result = .cLockBusy) ∧
      (vm_fork child_fork {}).1 = .fixnum 0 ∧
      (vm_fork child_fork {}).2.lock_held = true ∧
      (vm_fork child_fork {}).2.lock_inits = 1 :=
  have h := (fork_lock_protocol child_fork {} (Or.inl rfl)).2.2 rfl
  have hc := h.2.2.2.1 rfl rfl
  ⟨Or.inl rfl, hc.1, hc.2.1, hc.2.2.1⟩

/-! ## Native method contexts -/

/-- With a message and a task present, `create` completes: the new context sits
at a fresh address, is its own home, carries the bindings of the message, owns
a stack of the default size and an empty handle storage, and is current. -/
theorem create_with_message (D : Nat) (ns : NativeState) (m : Message) (t : Task)
    (method : Object) :
    ∃ ns1, NativeMethodContext_create D ns (some m) (some t) method
        = .ok (ns.contexts.length, ns1) ∧
      NativeMethodContext_current ns1 = some ns.contexts.length ∧
      ns1.contexts = ns.contexts ++
        [{ sender := t.active, home := ns.contexts.length, self := m.recv,
           module := m.module, name := .symbol m.name, stack_size := D, my_stack := D,
           my_action := .ORIGINAL_CALL, my_message := some m, my_method := method,
           my_handles := [], my_return_value := .nil, my_task := some t }] :=
  ⟨_, rfl, rfl, rfl⟩

/-- C14 (the code at the failing input): `allocate` never yields a context. The
default task `as<Task>(Qnil)` already fails the checked cast; and `create`
itself, entered with a null message, faults for every task and method: it reads
`task->active()` through an absent task, and otherwise `msg->recv` through the
null message, before any stack or handle storage is set up. -/
theorem allocate_reads_absent_message (D : Nat) (ns : NativeState) :
    NativeMethodContext_allocate D ns = .error .type_error ∧
    (∀ method, NativeMethodContext_create D ns none none method
      = .error .absent_task_read) ∧
    (∀ t method, NativeMethodContext_create D ns none (some t) method
      = .error .null_message_read) ∧
    (∀ task method r, NativeMethodContext_create D ns none task method ≠ .ok r) := by
  refine ⟨rfl, fun _ => rfl, fun _ _ => rfl, ?_⟩
  intro task method r
  cases task with
  | none => exact fun h => Except.noConfusion h
  | some t => exact fun h => Except.noConfusion h

end Rubinius
